import Mathlib

/-!
Verification development for the ICS4U repository's School API.

Two variants of the service are embedded from the JavaScript source:

* `Embedded` models `src/School-API/index.js`: tests are stored as an
  embedded sequence inside their owning course document, the course's
  `teacherId` is an optional number, and there is no Teacher collection.
* `Normalized` models `src/unnamed/part_001`: teachers, students, courses
  and tests are four top-level collections, a course's `teacherId` is a
  required reference to a Teacher, and a test carries explicit
  `studentId` and `courseId` references.

JavaScript numbers are modelled as rationals (`ℚ`), MongoDB ObjectIds as
their canonical 24-character lowercase-hex string rendering, and the
document store as lists of records.  Each Express handler becomes a pure
function from a store and a parsed request to an `Outcome` (the HTTP
status plus either a success body or an error message) and the resulting
store.  Identifiers that MongoDB would generate at insert time are passed
to the create handlers as an explicit `newId` argument.
-/

/-- An ObjectId, represented by its canonical 24-char lowercase hex string. -/
abbrev OID := String

/-- `Types.ObjectId.isValid` from mongoose: a string is a valid ObjectId
input when it is 24 hex characters (either case) or has length 12. -/
def oidInputValid (s : String) : Bool :=
  (s.length == 24 && s.toList.all (fun c => c.isDigit || ('a' ≤ c && c ≤ 'f') || ('A' ≤ c && c ≤ 'F')))
    || s.length == 12

/-- The lowercase hex digit for a value below 16. -/
def hexDigitChar (n : Nat) : Char :=
  if n < 10 then Char.ofNat ('0'.toNat + n) else Char.ofNat ('a'.toNat + (n - 10))

/-- Two lowercase hex digits for one byte. -/
def byteHex (n : Nat) : List Char :=
  [hexDigitChar (n / 16 % 16), hexDigitChar (n % 16)]

/-- `String(new ObjectId(s))` for a string `s` accepted by `isValid`:
a 24-hex-char input re-renders as its lowercase form; a 12-char input is
taken as 12 raw bytes and renders as their 24-char hex encoding. -/
def oidString (s : String) : String :=
  if s.length == 24 then ⟨s.toList.map Char.toLower⟩
  else ⟨(s.toList.map (fun c => byteHex (c.toNat % 256))).flatten⟩

/-- `toObjectId` from both variants (`index.js` lines 15–20): accept `id`
exactly when it is a valid ObjectId input whose ObjectId stringifies back
to `id` itself, and return that canonical id. -/
def toObjectId (s : String) : Option OID :=
  if oidInputValid s then
    if oidString s == s then some s else none
  else none

/-- Result of one request: an HTTP status with a success body, or an HTTP
status with an error message (the `{ error: ... }` envelope). -/
inductive Outcome (β : Type) where
  | success (status : Nat) (body : β)
  | failure (status : Nat) (error : String)
deriving DecidableEq, Repr

/-- `Number(x.toFixed(2))`: round a rational to two decimal places, ties
away from zero toward the larger value, as `toFixed` specifies. -/
def round2 (q : ℚ) : ℚ :=
  (⌊q * 100 + 1/2⌋ : ℚ) / 100

/-- `findByIdAndUpdate`-style list update: rewrite the first element
satisfying `q` using `f`, leaving the rest unchanged. -/
def updateFirst {α : Type} (q : α → Bool) (f : α → α) : List α → List α
  | [] => []
  | x :: xs => if q x then f x :: xs else x :: updateFirst q f xs

/-- `deleteOne`-style list removal: drop the first element satisfying `q`. -/
def eraseFirst {α : Type} (q : α → Bool) : List α → List α
  | [] => []
  | x :: xs => if q x then xs else x :: eraseFirst q xs

/-- `.find().sort(...)` with a sort key into a linear order. -/
def sortByKey {α κ : Type} [LinearOrder κ] (key : α → κ) (l : List α) : List α :=
  List.insertionSort (fun a b => key a ≤ key b) l

/-! ## Shared records

The Student schema and the student route handlers are textually identical
in both variants, and the flattened test objects the embedded variant
serves (`{id, studentId, courseId, testName, date, mark, outOf, weight}`)
coincide with the normalized variant's Test documents, so these records
and the student CRUD cores are shared. -/

/-- A Student document (`studentSchema`). -/
structure Student where
  id : OID
  firstName : String
  lastName : String
  grade : ℚ
  studentNumber : String
  homeroom : Option String
deriving DecidableEq, Repr

/-- A student request body: each field is present or absent. -/
structure StudentBody where
  firstName : Option String
  lastName : Option String
  grade : Option ℚ
  studentNumber : Option String
  homeroom : Option String
deriving DecidableEq, Repr

/-- A Test document with both references (`testSchema` of the normalized
variant; also the wire form of an embedded test annotated with its
owning course's id). -/
structure TestRec where
  id : OID
  studentId : OID
  courseId : OID
  testName : String
  date : String
  mark : ℚ
  outOf : ℚ
  weight : Option ℚ
deriving DecidableEq, Repr

/-- A test-creation request body. -/
structure TestBody where
  studentId : Option String
  courseId : Option String
  testName : Option String
  date : Option String
  mark : Option ℚ
  outOf : Option ℚ
  weight : Option ℚ
deriving DecidableEq, Repr

/-- JS truthiness test for an optional string field (`!x`): absent or empty. -/
def falsy : Option String → Bool
  | none => true
  | some s => s == ""

/-- Mongoose `required` validation for a String path in an update or create
document: a path set to the empty string fails (`checkRequired` demands a
nonempty string), an absent path passes (it is not being written). -/
def reqStrOk : Option String → Bool
  | some s => !(s == "")
  | none => true

/-- Update validation for `PUT /students/:id` (`runValidators: true`): the
required String paths `firstName`, `lastName` and `studentNumber` may not
be set to the empty string; a violation surfaces as a ValidationError that
the error middleware maps to HTTP 400. -/
def studentUpdateValid (b : StudentBody) : Bool :=
  reqStrOk b.firstName && reqStrOk b.lastName && reqStrOk b.studentNumber

/-- Sort key for students and teachers: `{ lastName: 1, firstName: 1 }`. -/
def nameKey (ln fn : String) : Lex (String × String) := toLex (ln, fn)

/-- The `$set` document built by `PUT /students/:id` applied to a student:
only the supplied fields change, `id`/`_id` are discarded. -/
def applyStudentUpdate (b : StudentBody) (x : Student) : Student :=
  { x with
    firstName := b.firstName.getD x.firstName
    lastName := b.lastName.getD x.lastName
    grade := b.grade.getD x.grade
    studentNumber := b.studentNumber.getD x.studentNumber
    homeroom := match b.homeroom with | none => x.homeroom | some h => some h }

/-- `GET /students`: all students sorted by last then first name. -/
def studentsList (l : List Student) : Outcome (List Student) :=
  .success 200 (sortByKey (fun x => nameKey x.lastName x.firstName) l)

/-- `GET /students/:id`. -/
def studentsGet (l : List Student) (raw : String) : Outcome Student :=
  match toObjectId raw with
  | none => .failure 400 "Invalid id format"
  | some i =>
    match l.find? (fun x => x.id == i) with
    | none => .failure 404 "Student not found"
    | some st => .success 200 st

/-- `POST /students`: required-field check, then insert with the
store-generated id `newId`. -/
def studentsCreate (l : List Student) (b : StudentBody) (newId : OID) :
    Outcome Student × List Student :=
  if falsy b.firstName || falsy b.lastName || b.grade.isNone || falsy b.studentNumber then
    (.failure 400 "Missing required fields", l)
  else
    let st : Student :=
      { id := newId
        firstName := b.firstName.getD ""
        lastName := b.lastName.getD ""
        grade := b.grade.getD 0
        studentNumber := b.studentNumber.getD ""
        homeroom := b.homeroom }
    (.success 201 st, l ++ [st])

/-- `PUT /students/:id` (`findByIdAndUpdate` with `new: true` and
`runValidators: true`): a payload that sets a required String path to the
empty string is rejected with a 400 ValidationError and nothing changes. -/
def studentsUpdate (l : List Student) (raw : String) (b : StudentBody) :
    Outcome Student × List Student :=
  match toObjectId raw with
  | none => (.failure 400 "Invalid id format", l)
  | some i =>
    if studentUpdateValid b then
      match l.find? (fun x => x.id == i) with
      | none => (.failure 404 "Student not found", l)
      | some st =>
        (.success 200 (applyStudentUpdate b st),
          updateFirst (fun x => x.id == i) (applyStudentUpdate b) l)
    else (.failure 400 "ValidationError", l)

/-- `DELETE /students/:id`: existence check, then the dependent-test check
(`refCheck`, which differs between the two variants), then `deleteOne`. -/
def studentsDelete (l : List Student) (refCheck : OID → Bool) (raw : String) :
    Outcome String × List Student :=
  match toObjectId raw with
  | none => (.failure 400 "Invalid id format", l)
  | some i =>
    if l.any (fun x => x.id == i) then
      if refCheck i then
        (.failure 400 "Cannot delete student with existing tests", l)
      else
        (.success 200 "Student deleted", eraseFirst (fun x => x.id == i) l)
    else (.failure 404 "Student not found", l)

/-- The `reduce` accumulating each test's percentage, from both variants'
`GET /students/:id/average`. -/
def percentFold (ts : List TestRec) : ℚ :=
  ts.foldl (fun acc x => acc + x.mark / x.outOf * 100) 0

/-! ## The normalized, teacher-aware variant (`src/unnamed/part_001`) -/

namespace Normalized

/-- A Teacher document (`teacherSchema`). -/
structure Teacher where
  id : OID
  firstName : String
  lastName : String
  employeeNumber : Option String
  email : Option String
  department : Option String
  room : Option String
deriving DecidableEq, Repr

/-- A teacher request body. -/
structure TeacherBody where
  firstName : Option String
  lastName : Option String
  employeeNumber : Option String
  email : Option String
  department : Option String
  room : Option String
deriving DecidableEq, Repr

/-- A Course document: `teacherId` is a required Teacher reference. -/
structure Course where
  id : OID
  code : String
  name : String
  teacherId : OID
  semester : String
  room : String
  schedule : Option String
deriving DecidableEq, Repr

/-- A course request body. -/
structure CourseBody where
  code : Option String
  name : Option String
  teacherId : Option String
  semester : Option String
  room : Option String
  schedule : Option String
deriving DecidableEq, Repr

/-- The four top-level collections. -/
structure Store where
  teachers : List Teacher
  students : List Student
  courses : List Course
  tests : List TestRec
deriving DecidableEq, Repr

/-- The state of a fresh deployment: every collection empty. -/
def emptyStore : Store := ⟨[], [], [], []⟩

/-- `GET /teachers`: sorted by last then first name. -/
def getTeachers (s : Store) : Outcome (List Teacher) × Store :=
  (.success 200 (sortByKey (fun x => nameKey x.lastName x.firstName) s.teachers), s)

/-- `GET /teachers/:id`. -/
def getTeacherById (s : Store) (raw : String) : Outcome Teacher × Store :=
  match toObjectId raw with
  | none => (.failure 400 "Invalid id format", s)
  | some i =>
    match s.teachers.find? (fun x => x.id == i) with
    | none => (.failure 404 "Teacher not found", s)
    | some t => (.success 200 t, s)

/-- `POST /teachers`: only first and last name are required. -/
def postTeachers (s : Store) (b : TeacherBody) (newId : OID) : Outcome Teacher × Store :=
  if falsy b.firstName || falsy b.lastName then
    (.failure 400 "Missing required fields", s)
  else
    let t : Teacher :=
      { id := newId
        firstName := b.firstName.getD ""
        lastName := b.lastName.getD ""
        employeeNumber := b.employeeNumber
        email := b.email
        department := b.department
        room := b.room }
    (.success 201 t, { s with teachers := s.teachers ++ [t] })

/-- The `$set` document of `PUT /teachers/:id` applied to a teacher. -/
def applyTeacherUpdate (b : TeacherBody) (x : Teacher) : Teacher :=
  { x with
    firstName := b.firstName.getD x.firstName
    lastName := b.lastName.getD x.lastName
    employeeNumber := match b.employeeNumber with | none => x.employeeNumber | some v => some v
    email := match b.email with | none => x.email | some v => some v
    department := match b.department with | none => x.department | some v => some v
    room := match b.room with | none => x.room | some v => some v }

/-- Update validation for `PUT /teachers/:id` (`runValidators: true`): the
required String paths `firstName` and `lastName` may not be set to the
empty string. -/
def teacherUpdateValid (b : TeacherBody) : Bool :=
  reqStrOk b.firstName && reqStrOk b.lastName

/-- `PUT /teachers/:id` (`findByIdAndUpdate` with `runValidators: true`). -/
def putTeachers (s : Store) (raw : String) (b : TeacherBody) : Outcome Teacher × Store :=
  match toObjectId raw with
  | none => (.failure 400 "Invalid id format", s)
  | some i =>
    if teacherUpdateValid b then
      match s.teachers.find? (fun x => x.id == i) with
      | none => (.failure 404 "Teacher not found", s)
      | some t =>
        (.success 200 (applyTeacherUpdate b t),
          { s with teachers := updateFirst (fun x => x.id == i) (applyTeacherUpdate b) s.teachers })
    else (.failure 400 "ValidationError", s)

/-- `DELETE /teachers/:id`: blocked while any course references the teacher. -/
def deleteTeachers (s : Store) (raw : String) : Outcome String × Store :=
  match toObjectId raw with
  | none => (.failure 400 "Invalid id format", s)
  | some i =>
    if s.teachers.any (fun x => x.id == i) then
      if s.courses.any (fun c => c.teacherId == i) then
        (.failure 400 "Cannot delete teacher assigned to courses", s)
      else
        (.success 200 "Teacher deleted", { s with teachers := eraseFirst (fun x => x.id == i) s.teachers })
    else (.failure 404 "Teacher not found", s)

/-- `GET /students`. -/
def getStudents (s : Store) : Outcome (List Student) × Store :=
  (studentsList s.students, s)

/-- `GET /students/:id`. -/
def getStudentById (s : Store) (raw : String) : Outcome Student × Store :=
  (studentsGet s.students raw, s)

/-- `POST /students`. -/
def postStudents (s : Store) (b : StudentBody) (newId : OID) : Outcome Student × Store :=
  let r := studentsCreate s.students b newId
  (r.1, { s with students := r.2 })

/-- `PUT /students/:id`. -/
def putStudents (s : Store) (raw : String) (b : StudentBody) : Outcome Student × Store :=
  let r := studentsUpdate s.students raw b
  (r.1, { s with students := r.2 })

/-- `DELETE /students/:id`: blocked while `Test.exists({ studentId: id })`. -/
def deleteStudents (s : Store) (raw : String) : Outcome String × Store :=
  let r := studentsDelete s.students (fun i => s.tests.any (fun t => t.studentId == i)) raw
  (r.1, { s with students := r.2 })

/-- `GET /courses`: sorted by code. -/
def getCourses (s : Store) : Outcome (List Course) × Store :=
  (.success 200 (sortByKey (fun c => c.code) s.courses), s)

/-- `GET /courses/:id`. -/
def getCourseById (s : Store) (raw : String) : Outcome Course × Store :=
  match toObjectId raw with
  | none => (.failure 400 "Invalid id format", s)
  | some i =>
    match s.courses.find? (fun c => c.id == i) with
    | none => (.failure 404 "Course not found", s)
    | some c => (.success 200 c, s)

/-- `POST /courses`: requires code, name, teacherId, semester, room; the
teacher reference must parse and resolve to an existing Teacher.  An
empty-string `semester` passes the handler's `=== undefined` guard but is
rejected by `Course.create`'s required-String validation (400
ValidationError). -/
def postCourses (s : Store) (b : CourseBody) (newId : OID) : Outcome Course × Store :=
  if falsy b.code || falsy b.name || falsy b.teacherId || b.semester.isNone || falsy b.room then
    (.failure 400 "Missing required fields", s)
  else
    match toObjectId (b.teacherId.getD "") with
    | none => (.failure 400 "Invalid teacherId", s)
    | some t =>
      if s.teachers.any (fun x => x.id == t) then
        if reqStrOk b.semester then
          let c : Course :=
            { id := newId
              code := b.code.getD ""
              name := b.name.getD ""
              teacherId := t
              semester := b.semester.getD ""
              room := b.room.getD ""
              schedule := b.schedule }
          (.success 201 c, { s with courses := s.courses ++ [c] })
        else (.failure 400 "ValidationError", s)
      else (.failure 400 "Teacher not found", s)

/-- The `$set` document of `PUT /courses/:id` applied to a course, with the
already-validated replacement teacher reference `t` when one was supplied. -/
def applyCourseUpdate (b : CourseBody) (t : Option OID) (c : Course) : Course :=
  { c with
    code := b.code.getD c.code
    name := b.name.getD c.name
    teacherId := t.getD c.teacherId
    semester := b.semester.getD c.semester
    room := b.room.getD c.room
    schedule := match b.schedule with | none => c.schedule | some v => some v }

/-- Update validation for `PUT /courses/:id` (`runValidators: true`): the
required String paths `code`, `name`, `semester` and `room` may not be set
to the empty string. -/
def courseUpdateValid (b : CourseBody) : Bool :=
  reqStrOk b.code && reqStrOk b.name && reqStrOk b.semester && reqStrOk b.room

/-- The `findByIdAndUpdate` step of `PUT /courses/:id` (with
`runValidators: true`), after the optional teacher reference has been
validated by the handler itself. -/
def putCoursesApply (s : Store) (i : OID) (b : CourseBody) (t : Option OID) :
    Outcome Course × Store :=
  if courseUpdateValid b then
    match s.courses.find? (fun c => c.id == i) with
    | none => (.failure 404 "Course not found", s)
    | some c =>
      (.success 200 (applyCourseUpdate b t c),
        { s with courses := updateFirst (fun c => c.id == i) (applyCourseUpdate b t) s.courses })
  else (.failure 400 "ValidationError", s)

/-- `PUT /courses/:id`: a supplied `teacherId` must parse and resolve to an
existing Teacher before the update is applied. -/
def putCourses (s : Store) (raw : String) (b : CourseBody) : Outcome Course × Store :=
  match toObjectId raw with
  | none => (.failure 400 "Invalid id format", s)
  | some i =>
    match b.teacherId with
    | none => putCoursesApply s i b none
    | some tRaw =>
      match toObjectId tRaw with
      | none => (.failure 400 "Invalid teacherId", s)
      | some t =>
        if s.teachers.any (fun x => x.id == t) then putCoursesApply s i b (some t)
        else (.failure 400 "Teacher not found", s)

/-- `DELETE /courses/:id`: blocked while `Test.exists({ courseId: id })`. -/
def deleteCourses (s : Store) (raw : String) : Outcome String × Store :=
  match toObjectId raw with
  | none => (.failure 400 "Invalid id format", s)
  | some i =>
    match s.courses.find? (fun c => c.id == i) with
    | none => (.failure 404 "Course not found", s)
    | some _ =>
      if s.tests.any (fun t => t.courseId == i) then
        (.failure 400 "Cannot delete course with existing tests", s)
      else
        (.success 200 "Course deleted", { s with courses := eraseFirst (fun c => c.id == i) s.courses })

/-- `GET /tests`: sorted by date. -/
def getTests (s : Store) : Outcome (List TestRec) × Store :=
  (.success 200 (sortByKey (fun t => t.date) s.tests), s)

/-- `GET /tests/:id`. -/
def getTestById (s : Store) (raw : String) : Outcome TestRec × Store :=
  match toObjectId raw with
  | none => (.failure 400 "Invalid id format", s)
  | some i =>
    match s.tests.find? (fun t => t.id == i) with
    | none => (.failure 404 "Test not found", s)
    | some t => (.success 200 t, s)

/-- `POST /tests`: required fields, both references must parse, the student
and the course must exist; only then is the Test inserted. -/
def postTests (s : Store) (b : TestBody) (newId : OID) : Outcome TestRec × Store :=
  if falsy b.studentId || falsy b.courseId || falsy b.testName || falsy b.date
      || b.mark.isNone || b.outOf.isNone then
    (.failure 400 "Missing required fields", s)
  else
    match toObjectId (b.studentId.getD "") with
    | none => (.failure 400 "Invalid studentId", s)
    | some sId =>
      match toObjectId (b.courseId.getD "") with
      | none => (.failure 400 "Invalid courseId", s)
      | some cId =>
        if s.students.any (fun x => x.id == sId) then
          if s.courses.any (fun c => c.id == cId) then
            let t : TestRec :=
              { id := newId
                studentId := sId
                courseId := cId
                testName := b.testName.getD ""
                date := b.date.getD ""
                mark := b.mark.getD 0
                outOf := b.outOf.getD 0
                weight := b.weight }
            (.success 201 t, { s with tests := s.tests ++ [t] })
          else (.failure 400 "Course not found", s)
        else (.failure 400 "Student not found", s)

/-- `DELETE /tests/:id`: unguarded. -/
def deleteTests (s : Store) (raw : String) : Outcome String × Store :=
  match toObjectId raw with
  | none => (.failure 400 "Invalid id format", s)
  | some i =>
    if s.tests.any (fun t => t.id == i) then
      (.success 200 "Test deleted", { s with tests := eraseFirst (fun t => t.id == i) s.tests })
    else (.failure 404 "Test not found", s)

/-- `GET /students/:id/tests`: the student's tests sorted by date; no
student-existence check is performed. -/
def getStudentTests (s : Store) (raw : String) : Outcome (List TestRec) × Store :=
  match toObjectId raw with
  | none => (.failure 400 "Invalid id format", s)
  | some i =>
    (.success 200 (sortByKey (fun t => t.date) (s.tests.filter (fun t => t.studentId == i))), s)

/-- `GET /courses/:id/tests`: 404 for a missing course, else its tests by date. -/
def getCourseTests (s : Store) (raw : String) : Outcome (List TestRec) × Store :=
  match toObjectId raw with
  | none => (.failure 400 "Invalid id format", s)
  | some i =>
    if s.courses.any (fun c => c.id == i) then
      (.success 200 (sortByKey (fun t => t.date) (s.tests.filter (fun t => t.courseId == i))), s)
    else (.failure 404 "Course not found", s)

/-- `GET /students/:id/average`: 0 for zero tests, else the mean percentage
rounded to two decimals; no student-existence check is performed. -/
def getStudentAverage (s : Store) (raw : String) : Outcome ℚ × Store :=
  match toObjectId raw with
  | none => (.failure 400 "Invalid id format", s)
  | some i =>
    let ts := s.tests.filter (fun t => t.studentId == i)
    if ts.isEmpty then (.success 200 0, s)
    else (.success 200 (round2 (percentFold ts / ts.length)), s)

/-- Referential integrity of a normalized store: every test's student and
course references resolve, and every course's teacher reference resolves. -/
def Integrity (s : Store) : Prop :=
  (∀ t ∈ s.tests,
      s.students.any (fun x => x.id == t.studentId) = true ∧
      s.courses.any (fun c => c.id == t.courseId) = true) ∧
  (∀ c ∈ s.courses, s.teachers.any (fun x => x.id == c.teacherId) = true)

instance (s : Store) : Decidable (Integrity s) := by
  unfold Integrity
  infer_instance

/-- One state-changing request of the normalized API, with an arbitrary
parsed payload (and, for creates, an arbitrary store-assigned id). -/
inductive Step : Store → Store → Prop
  | createTeacher (s : Store) (b : TeacherBody) (newId : OID) : Step s (postTeachers s b newId).2
  | updateTeacher (s : Store) (raw : String) (b : TeacherBody) : Step s (putTeachers s raw b).2
  | removeTeacher (s : Store) (raw : String) : Step s (deleteTeachers s raw).2
  | createStudent (s : Store) (b : StudentBody) (newId : OID) : Step s (postStudents s b newId).2
  | updateStudent (s : Store) (raw : String) (b : StudentBody) : Step s (putStudents s raw b).2
  | removeStudent (s : Store) (raw : String) : Step s (deleteStudents s raw).2
  | createCourse (s : Store) (b : CourseBody) (newId : OID) : Step s (postCourses s b newId).2
  | updateCourse (s : Store) (raw : String) (b : CourseBody) : Step s (putCourses s raw b).2
  | removeCourse (s : Store) (raw : String) : Step s (deleteCourses s raw).2
  | createTest (s : Store) (b : TestBody) (newId : OID) : Step s (postTests s b newId).2
  | removeTest (s : Store) (raw : String) : Step s (deleteTests s raw).2

/-- Stores reachable from the empty deployment by API requests. -/
inductive Reachable : Store → Prop
  | empty : Reachable emptyStore
  | step {s s' : Store} : Reachable s → Step s s' → Reachable s'

end Normalized

/-! ## The embedded-tests variant (`src/School-API/index.js`) -/

namespace Embedded

/-- A test subdocument embedded in a course (`testSchema`): it carries a
student reference but no course reference. -/
structure ETest where
  id : OID
  studentId : OID
  testName : String
  date : String
  mark : ℚ
  outOf : ℚ
  weight : Option ℚ
deriving DecidableEq, Repr

/-- A Course document owning its tests; `teacherId` is an optional number
with no Teacher collection behind it. -/
structure ECourse where
  id : OID
  code : String
  name : String
  teacherId : Option ℚ
  semester : String
  room : String
  schedule : Option String
  tests : List ETest
deriving DecidableEq, Repr

/-- A course request body; `tests` may be supplied but `PUT` discards it
(`delete update.tests`) and `POST` ignores it (`tests: []`). -/
structure ECourseBody where
  code : Option String
  name : Option String
  teacherId : Option ℚ
  semester : Option String
  room : Option String
  schedule : Option String
  tests : Option (List ETest)
deriving DecidableEq, Repr

/-- The two collections of this variant. -/
structure Store where
  students : List Student
  courses : List ECourse
deriving DecidableEq, Repr

/-- The state of a fresh deployment. -/
def emptyStore : Store := ⟨[], []⟩

/-- Serialization of an embedded test for the API: its fields plus the
owning course's id as `courseId`. -/
def etestOut (cid : OID) (t : ETest) : TestRec :=
  { id := t.id
    studentId := t.studentId
    courseId := cid
    testName := t.testName
    date := t.date
    mark := t.mark
    outOf := t.outOf
    weight := t.weight }

/-- The percentage-accumulating `reduce` over embedded tests. -/
def percentFoldE (ts : List ETest) : ℚ :=
  ts.foldl (fun acc x => acc + x.mark / x.outOf * 100) 0

/-- `GET /students`. -/
def getStudents (s : Store) : Outcome (List Student) × Store :=
  (studentsList s.students, s)

/-- `GET /students/:id`. -/
def getStudentById (s : Store) (raw : String) : Outcome Student × Store :=
  (studentsGet s.students raw, s)

/-- `POST /students`. -/
def postStudents (s : Store) (b : StudentBody) (newId : OID) : Outcome Student × Store :=
  let r := studentsCreate s.students b newId
  (r.1, { s with students := r.2 })

/-- `PUT /students/:id`. -/
def putStudents (s : Store) (raw : String) (b : StudentBody) : Outcome Student × Store :=
  let r := studentsUpdate s.students raw b
  (r.1, { s with students := r.2 })

/-- `DELETE /students/:id`: blocked while
`Course.exists({ "tests.studentId": id })`. -/
def deleteStudents (s : Store) (raw : String) : Outcome String × Store :=
  let r := studentsDelete s.students
    (fun i => s.courses.any (fun c => c.tests.any (fun t => t.studentId == i))) raw
  (r.1, { s with students := r.2 })

/-- `GET /courses`: sorted by code. -/
def getCourses (s : Store) : Outcome (List ECourse) × Store :=
  (.success 200 (sortByKey (fun c => c.code) s.courses), s)

/-- `GET /courses/:id`. -/
def getCourseById (s : Store) (raw : String) : Outcome ECourse × Store :=
  match toObjectId raw with
  | none => (.failure 400 "Invalid id format", s)
  | some i =>
    match s.courses.find? (fun c => c.id == i) with
    | none => (.failure 404 "Course not found", s)
    | some c => (.success 200 c, s)

/-- `POST /courses`: requires code, name, semester, room; `teacherId` is an
optional number and is not validated; tests start empty.  An empty-string
`semester` passes the handler's `=== undefined` guard but is rejected by
`Course.create`'s required-String validation (400 ValidationError). -/
def postCourses (s : Store) (b : ECourseBody) (newId : OID) : Outcome ECourse × Store :=
  if falsy b.code || falsy b.name || b.semester.isNone || falsy b.room then
    (.failure 400 "Missing required fields", s)
  else
    if reqStrOk b.semester then
      let c : ECourse :=
        { id := newId
          code := b.code.getD ""
          name := b.name.getD ""
          teacherId := b.teacherId
          semester := b.semester.getD ""
          room := b.room.getD ""
          schedule := b.schedule
          tests := [] }
      (.success 201 c, { s with courses := s.courses ++ [c] })
    else (.failure 400 "ValidationError", s)

/-- The `$set` document of `PUT /courses/:id` applied to a course: the
`tests`, `id` and `_id` keys are deleted from the payload first, so the
embedded test sequence is untouched. -/
def applyCourseUpdate (b : ECourseBody) (c : ECourse) : ECourse :=
  { c with
    code := b.code.getD c.code
    name := b.name.getD c.name
    teacherId := match b.teacherId with | none => c.teacherId | some v => some v
    semester := b.semester.getD c.semester
    room := b.room.getD c.room
    schedule := match b.schedule with | none => c.schedule | some v => some v }

/-- Update validation for `PUT /courses/:id` (`runValidators: true`): the
required String paths `code`, `name`, `semester` and `room` may not be set
to the empty string. -/
def courseUpdateValid (b : ECourseBody) : Bool :=
  reqStrOk b.code && reqStrOk b.name && reqStrOk b.semester && reqStrOk b.room

/-- `PUT /courses/:id` (`findByIdAndUpdate` with `runValidators: true`). -/
def putCourses (s : Store) (raw : String) (b : ECourseBody) : Outcome ECourse × Store :=
  match toObjectId raw with
  | none => (.failure 400 "Invalid id format", s)
  | some i =>
    if courseUpdateValid b then
      match s.courses.find? (fun c => c.id == i) with
      | none => (.failure 404 "Course not found", s)
      | some c =>
        (.success 200 (applyCourseUpdate b c),
          { s with courses := updateFirst (fun c => c.id == i) (applyCourseUpdate b) s.courses })
    else (.failure 400 "ValidationError", s)

/-- `DELETE /courses/:id`: blocked while the course still owns tests. -/
def deleteCourses (s : Store) (raw : String) : Outcome String × Store :=
  match toObjectId raw with
  | none => (.failure 400 "Invalid id format", s)
  | some i =>
    match s.courses.find? (fun c => c.id == i) with
    | none => (.failure 404 "Course not found", s)
    | some c =>
      if c.tests.length > 0 then
        (.failure 400 "Cannot delete course with existing tests", s)
      else
        (.success 200 "Course deleted", { s with courses := eraseFirst (fun c => c.id == i) s.courses })

/-- `GET /tests`: every course's embedded tests flattened in collection
order, each annotated with its owning course's id; no sort is applied. -/
def getTests (s : Store) : Outcome (List TestRec) × Store :=
  (.success 200 ((s.courses.map (fun c => c.tests.map (etestOut c.id))).flatten), s)

/-- `GET /tests/:id`: the first course containing a test with the id, then
that test annotated with the course's id. -/
def getTestById (s : Store) (raw : String) : Outcome TestRec × Store :=
  match toObjectId raw with
  | none => (.failure 400 "Invalid id format", s)
  | some i =>
    match s.courses.find? (fun c => c.tests.any (fun t => t.id == i)) with
    | none => (.failure 404 "Test not found", s)
    | some c =>
      match c.tests.find? (fun t => t.id == i) with
      | none => (.failure 404 "Test not found", s)
      | some t => (.success 200 (etestOut c.id t), s)

/-- `POST /tests`: required fields, both references must parse, the student
must exist and the course must be found; the test is pushed onto the
course's embedded sequence. -/
def postTests (s : Store) (b : TestBody) (newId : OID) : Outcome TestRec × Store :=
  if falsy b.studentId || falsy b.courseId || falsy b.testName || falsy b.date
      || b.mark.isNone || b.outOf.isNone then
    (.failure 400 "Missing required fields", s)
  else
    match toObjectId (b.studentId.getD "") with
    | none => (.failure 400 "Invalid studentId", s)
    | some sId =>
      match toObjectId (b.courseId.getD "") with
      | none => (.failure 400 "Invalid courseId", s)
      | some cId =>
        if s.students.any (fun x => x.id == sId) then
          match s.courses.find? (fun c => c.id == cId) with
          | none => (.failure 400 "Course not found", s)
          | some c =>
            let t : ETest :=
              { id := newId
                studentId := sId
                testName := b.testName.getD ""
                date := b.date.getD ""
                mark := b.mark.getD 0
                outOf := b.outOf.getD 0
                weight := b.weight }
            let courses' := updateFirst (fun c => c.id == cId)
              (fun c => { c with tests := c.tests ++ [t] }) s.courses
            (.success 201 (etestOut c.id t), { s with courses := courses' })
        else (.failure 400 "Student not found", s)

/-- `DELETE /tests/:id`: finds the owning course, then `$pull`s every
embedded test with that id from it. -/
def deleteTests (s : Store) (raw : String) : Outcome String × Store :=
  match toObjectId raw with
  | none => (.failure 400 "Invalid id format", s)
  | some i =>
    match s.courses.find? (fun c => c.tests.any (fun t => t.id == i)) with
    | none => (.failure 404 "Test not found", s)
    | some c =>
      let courses' := updateFirst (fun c2 => c2.id == c.id)
        (fun c2 => { c2 with tests := c2.tests.filter (fun t => !(t.id == i)) }) s.courses
      (.success 200 "Test deleted", { s with courses := courses' })

/-- `GET /students/:id/tests`: courses having a matching test, each
contributing its matching tests in stored order; no student-existence
check is performed and no sort is applied. -/
def getStudentTests (s : Store) (raw : String) : Outcome (List TestRec) × Store :=
  match toObjectId raw with
  | none => (.failure 400 "Invalid id format", s)
  | some i =>
    (.success 200
      (((s.courses.filter (fun c => c.tests.any (fun t => t.studentId == i))).map
          (fun c => (c.tests.filter (fun t => t.studentId == i)).map (etestOut c.id))).flatten), s)

/-- `GET /courses/:id/tests`: 404 for a missing course, else its embedded
tests in stored order. -/
def getCourseTests (s : Store) (raw : String) : Outcome (List TestRec) × Store :=
  match toObjectId raw with
  | none => (.failure 400 "Invalid id format", s)
  | some i =>
    match s.courses.find? (fun c => c.id == i) with
    | none => (.failure 404 "Course not found", s)
    | some c => (.success 200 (c.tests.map (etestOut c.id)), s)

/-- `GET /students/:id/average`: 0 for zero tests, else the mean percentage
rounded to two decimals; no student-existence check is performed. -/
def getStudentAverage (s : Store) (raw : String) : Outcome ℚ × Store :=
  match toObjectId raw with
  | none => (.failure 400 "Invalid id format", s)
  | some i =>
    let ts := ((s.courses.filter (fun c => c.tests.any (fun t => t.studentId == i))).map
      (fun c => c.tests.filter (fun t => t.studentId == i))).flatten
    if ts.isEmpty then (.success 200 0, s)
    else (.success 200 (round2 (percentFoldE ts / ts.length)), s)

/-- Referential integrity of an embedded store: every embedded test's
student reference resolves to an existing student (its course reference is
the owning course itself). -/
def Integrity (s : Store) : Prop :=
  ∀ c ∈ s.courses, ∀ t ∈ c.tests, s.students.any (fun x => x.id == t.studentId) = true

instance (s : Store) : Decidable (Integrity s) := by
  unfold Integrity
  infer_instance

/-- One state-changing request of the embedded-variant API. -/
inductive Step : Store → Store → Prop
  | createStudent (s : Store) (b : StudentBody) (newId : OID) : Step s (postStudents s b newId).2
  | updateStudent (s : Store) (raw : String) (b : StudentBody) : Step s (putStudents s raw b).2
  | removeStudent (s : Store) (raw : String) : Step s (deleteStudents s raw).2
  | createCourse (s : Store) (b : ECourseBody) (newId : OID) : Step s (postCourses s b newId).2
  | updateCourse (s : Store) (raw : String) (b : ECourseBody) : Step s (putCourses s raw b).2
  | removeCourse (s : Store) (raw : String) : Step s (deleteCourses s raw).2
  | createTest (s : Store) (b : TestBody) (newId : OID) : Step s (postTests s b newId).2
  | removeTest (s : Store) (raw : String) : Step s (deleteTests s raw).2

/-- Stores reachable from the empty deployment by API requests. -/
inductive Reachable : Store → Prop
  | empty : Reachable emptyStore
  | step {s s' : Store} : Reachable s → Step s s' → Reachable s'

end Embedded

/-! ## Claim-support definitions -/

namespace Normalized

/-- Whether a raw student reference from a request body resolves: the field
is present, parses as a canonical ObjectId, and an existing Student has it. -/
def resolvesStudentRef (s : Store) (r : Option String) : Bool :=
  match r with
  | none => false
  | some str =>
    match toObjectId str with
    | none => false
    | some i => s.students.any (fun x => x.id == i)

/-- Whether a raw course reference from a request body resolves. -/
def resolvesCourseRef (s : Store) (r : Option String) : Bool :=
  match r with
  | none => false
  | some str =>
    match toObjectId str with
    | none => false
    | some i => s.courses.any (fun c => c.id == i)

end Normalized

namespace Embedded

/-- Whether a raw student reference from a request body resolves. -/
def resolvesStudentRef (s : Store) (r : Option String) : Bool :=
  match r with
  | none => false
  | some str =>
    match toObjectId str with
    | none => false
    | some i => s.students.any (fun x => x.id == i)

/-- Whether a raw course reference from a request body resolves. -/
def resolvesCourseRef (s : Store) (r : Option String) : Bool :=
  match r with
  | none => false
  | some str =>
    match toObjectId str with
    | none => false
    | some i => s.courses.any (fun c => c.id == i)

end Embedded

/-- Modelled from the spec (section 4.4): `mean(mark/outOf * 100)` over the
collected tests, rounded to two decimal places, with defined value 0 for an
empty collection.  Refinement target for the average route. -/
def specAverage (marks : List (ℚ × ℚ)) : ℚ :=
  if marks = [] then 0
  else round2 ((marks.map (fun p => p.1 / p.2 * 100)).sum / marks.length)

/-- An update payload that carries only `grade`. -/
def gradeOnlyBody (g : ℚ) : StudentBody :=
  ⟨none, none, some g, none, none⟩

/-- Canonical ObjectId used for a sample student. -/
def oidA : OID := "aaaaaaaaaaaaaaaaaaaaaaaa"

/-- Canonical ObjectId used for a sample course. -/
def oidB : OID := "bbbbbbbbbbbbbbbbbbbbbbbb"

/-- Canonical ObjectId used for a sample teacher. -/
def oidC : OID := "cccccccccccccccccccccccc"

/-- Canonical ObjectId used for a sample test. -/
def oidD : OID := "dddddddddddddddddddddddd"

/-- Canonical ObjectId used for a second sample test. -/
def oidE : OID := "eeeeeeeeeeeeeeeeeeeeeeee"

/-- Canonical ObjectId used for a third sample test. -/
def oidF : OID := "ffffffffffffffffffffffff"

/-- A sample student record. -/
def sampleStudent : Student := ⟨oidA, "Ann", "Lee", 11, "S100", none⟩

/-- A sample teacher record. -/
def sampleTeacher : Normalized.Teacher := ⟨oidC, "Tom", "Ray", none, none, none, none⟩

/-- A sample normalized course taught by `sampleTeacher`. -/
def sampleCourseN : Normalized.Course := ⟨oidB, "MCV4U", "Calculus", oidC, "S1", "101", none⟩

/-- A sample normalized test: 8/10 for `sampleStudent`. -/
def sampleTestN1 : TestRec := ⟨oidD, oidA, oidB, "quiz1", "2024-01-10", 8, 10, none⟩

/-- A second sample normalized test: 9/10 for `sampleStudent`. -/
def sampleTestN2 : TestRec := ⟨oidE, oidA, oidB, "quiz2", "2024-02-10", 9, 10, none⟩

/-- A sample normalized store satisfying referential integrity. -/
def sampleStoreN : Normalized.Store :=
  ⟨[sampleTeacher], [sampleStudent], [sampleCourseN], [sampleTestN1, sampleTestN2]⟩

/-- A sample embedded test with the later date and the larger id. -/
def sampleETest1 : Embedded.ETest := ⟨oidF, oidA, "quiz1", "2024-02-10", 8, 10, none⟩

/-- A sample embedded test with the earlier date and the smaller id. -/
def sampleETest2 : Embedded.ETest := ⟨oidD, oidA, "quiz2", "2024-01-10", 9, 10, none⟩

/-- A sample embedded course storing the later-dated test first. -/
def sampleCourseE : Embedded.ECourse :=
  ⟨oidB, "MCV4U", "Calculus", none, "S1", "101", none, [sampleETest1, sampleETest2]⟩

/-- A sample embedded store. -/
def sampleStoreE : Embedded.Store := ⟨[sampleStudent], [sampleCourseE]⟩
theorem sortByKey_sorted {α κ : Type} [LinearOrder κ] (key : α → κ) (l : List α) :
    (sortByKey key l).Pairwise (fun a b => key a ≤ key b) := by
  haveI : IsTotal α (fun a b => key a ≤ key b) := ⟨fun a b => le_total (key a) (key b)⟩
  haveI : IsTrans α (fun a b => key a ≤ key b) := ⟨fun a b c hab hbc => le_trans hab hbc⟩
  exact List.sorted_insertionSort _ l

theorem sortByKey_perm {α κ : Type} [LinearOrder κ] (key : α → κ) (l : List α) :
    (sortByKey key l).Perm l :=
  List.perm_insertionSort _ l

theorem mem_eraseFirst_of_not {α : Type} (q : α → Bool) {x : α} :
    ∀ {l : List α}, x ∈ l → q x = false → x ∈ eraseFirst q l := by
  intro l
  induction l with
  | nil => intro h; cases h
  | cons y ys ih =>
    intro hx hq
    rcases List.mem_cons.mp hx with rfl | h
    · have hy : q x = false := hq
      simp [eraseFirst, hy]
    · by_cases hy : q y = true
      · simpa only [eraseFirst, hy, ite_true] using h
      · simp only [Bool.not_eq_true] at hy
        simp only [eraseFirst, hy, Bool.false_eq_true, ite_false, List.mem_cons]
        exact Or.inr (ih h hq)

theorem mem_of_mem_eraseFirst {α : Type} (q : α → Bool) {x : α} :
    ∀ {l : List α}, x ∈ eraseFirst q l → x ∈ l := by
  intro l
  induction l with
  | nil => intro h; cases h
  | cons y ys ih =>
    intro hx
    by_cases hy : q y = true
    · simp only [eraseFirst, hy, ite_true] at hx
      exact List.mem_cons_of_mem _ hx
    · simp only [Bool.not_eq_true] at hy
      simp only [eraseFirst, hy, Bool.false_eq_true, ite_false, List.mem_cons] at hx
      rcases hx with h | h
      · exact h ▸ List.mem_cons_self _ _
      · exact List.mem_cons_of_mem _ (ih h)

theorem mem_updateFirst {α : Type} (q : α → Bool) (f : α → α) {y : α} :
    ∀ {l : List α}, y ∈ updateFirst q f l → y ∈ l ∨ ∃ x ∈ l, y = f x := by
  intro l
  induction l with
  | nil => intro h; cases h
  | cons z zs ih =>
    intro hy
    by_cases hz : q z = true
    · simp only [updateFirst, hz, ite_true, List.mem_cons] at hy
      rcases hy with h | h
      · exact Or.inr ⟨z, List.mem_cons_self _ _, h⟩
      · exact Or.inl (List.mem_cons_of_mem _ h)
    · simp only [Bool.not_eq_true] at hz
      simp only [updateFirst, hz, Bool.false_eq_true, ite_false, List.mem_cons] at hy
      rcases hy with h | h
      · exact Or.inl (h ▸ List.mem_cons_self _ _)
      · rcases ih h with h' | ⟨x, hx, hfx⟩
        · exact Or.inl (List.mem_cons_of_mem _ h')
        · exact Or.inr ⟨x, List.mem_cons_of_mem _ hx, hfx⟩

theorem any_updateFirst_of_keyFixed {α : Type} (q : α → Bool) (f : α → α)
    (g : α → OID) (hf : ∀ x, g (f x) = g x) (k : OID) :
    ∀ l : List α, (updateFirst q f l).any (fun x => g x == k) = l.any (fun x => g x == k) := by
  intro l
  induction l with
  | nil => rfl
  | cons z zs ih =>
    by_cases hz : q z = true
    · simp [updateFirst, hz, hf]
    · simp only [Bool.not_eq_true] at hz
      simp [updateFirst, hz, ih]

theorem find?_updateFirst {α : Type} (p : α → Bool) (f : α → α) :
    ∀ {l : List α} {x : α}, l.find? p = some x → p (f x) = true →
      (updateFirst p f l).find? p = some (f x) := by
  intro l
  induction l with
  | nil => intro x h; cases h
  | cons y ys ih =>
    intro x h hpf
    by_cases hy : p y = true
    · rw [List.find?_cons_of_pos _ hy] at h
      cases h
      simp [updateFirst, hy, List.find?_cons_of_pos _ hpf]
    · simp only [Bool.not_eq_true] at hy
      have hy' : ¬ p y = true := by simp [hy]
      rw [List.find?_cons_of_neg _ hy'] at h
      simp [updateFirst, hy, List.find?_cons_of_neg _ hy', ih h hpf]

theorem any_eraseFirst {α : Type} (g : α → OID) (i k : OID) (hne : k ≠ i) :
    ∀ {l : List α}, l.any (fun x => g x == k) = true →
      (eraseFirst (fun x => g x == i) l).any (fun x => g x == k) = true := by
  intro l h
  rw [List.any_eq_true] at h ⊢
  obtain ⟨x, hx, hpx⟩ := h
  have hgx : g x = k := by simpa using hpx
  refine ⟨x, mem_eraseFirst_of_not _ hx ?_, hpx⟩
  simp [hgx, hne]

theorem all_eraseFirst_nodup {α : Type} (g : α → OID) (i : OID) :
    ∀ l : List α, (l.map g).Nodup →
      ∀ x ∈ eraseFirst (fun y => g y == i) l, g x = i → False := by
  intro l
  induction l with
  | nil => intro _ x hx; cases hx
  | cons y ys ih =>
    intro hnd x hx hgx
    have hnd' : (g y) ∉ (ys.map g) ∧ (ys.map g).Nodup := by
      rw [← List.nodup_cons, ← List.map_cons]
      exact hnd
    obtain ⟨hy, hys⟩ := hnd'
    by_cases hq : (g y == i) = true
    · have hgy : g y = i := by simpa using hq
      simp only [eraseFirst, hq, ite_true] at hx
      exact hy (hgy ▸ hgx ▸ List.mem_map_of_mem g hx)
    · simp only [Bool.not_eq_true] at hq
      simp only [eraseFirst, hq, Bool.false_eq_true, ite_false, List.mem_cons] at hx
      rcases hx with rfl | hx
      · simp [hgx] at hq
      · exact ih hys x hx hgx

theorem find?_append_none {α : Type} (p : α → Bool) {l m : List α}
    (h : l.find? p = none) : (l ++ m).find? p = m.find? p := by
  rw [List.find?_append, h, Option.none_or]

theorem foldl_add_percent {α : Type} (f : α → ℚ) :
    ∀ (l : List α) (a : ℚ),
      l.foldl (fun acc x => acc + f x) a = a + (l.map f).sum := by
  intro l
  induction l with
  | nil => intro a; simp
  | cons x xs ih =>
    intro a
    simp only [List.foldl_cons, List.map_cons, List.sum_cons, ih, add_assoc]

theorem studentsCreate_cases (l : List Student) (b : StudentBody) (newId : OID) :
    studentsCreate l b newId = (.failure 400 "Missing required fields", l) ∨
    ∃ st : Student, st.id = newId ∧ studentsCreate l b newId = (.success 201 st, l ++ [st]) := by
  unfold studentsCreate
  split
  · exact Or.inl rfl
  · exact Or.inr ⟨_, rfl, rfl⟩

theorem studentsCreate_get (l : List Student) (b : StudentBody) (newId : OID)
    (created : Student) (l2 : List Student)
    (h : studentsCreate l b newId = (.success 201 created, l2))
    (hid : toObjectId newId = some newId)
    (hfresh : ∀ y ∈ l, (y.id == newId) = false) :
    studentsGet l2 newId = .success 200 created := by
  rcases studentsCreate_cases l b newId with hc | ⟨st, hstid, hc⟩
  · rw [hc] at h
    simp [Prod.ext_iff] at h
  · rw [hc] at h
    injection h with h1 h2
    injection h1 with h3 h4
    obtain rfl : st = created := h4
    subst h2
    have hlnone : List.find? (fun y => y.id == newId) l = none := by
      rw [List.find?_eq_none]
      intro y hy
      simp [hfresh y hy]
    have hpos : (st.id == newId) = true := by simp [hstid]
    simp [studentsGet, hid, find?_append_none _ hlnone, List.find?_cons_of_pos _ hpos, hstid]

theorem studentsUpdate_gradeOnly (l : List Student) (raw : String) (i : OID) (x : Student) (g : ℚ)
    (h1 : toObjectId raw = some i) (h2 : l.find? (fun y => y.id == i) = some x) :
    studentsUpdate l raw (gradeOnlyBody g) =
      (.success 200 { x with grade := g },
        updateFirst (fun y => y.id == i) (applyStudentUpdate (gradeOnlyBody g)) l) ∧
    (updateFirst (fun y => y.id == i) (applyStudentUpdate (gradeOnlyBody g)) l).find?
        (fun y => y.id == i) = some { x with grade := g } := by
  have happ : applyStudentUpdate (gradeOnlyBody g) x = { x with grade := g } := by
    simp [applyStudentUpdate, gradeOnlyBody]
  have hv : studentUpdateValid (gradeOnlyBody g) = true := rfl
  constructor
  · simp [studentsUpdate, hv, h1, h2, happ]
  · have hpx : ((applyStudentUpdate (gradeOnlyBody g) x).id == i) = true := by
      have := List.find?_some h2
      simpa [applyStudentUpdate] using this
    have := find?_updateFirst (fun y => y.id == i) (applyStudentUpdate (gradeOnlyBody g)) h2 hpx
    rw [happ] at this
    exact this

theorem studentsDelete_spec (l : List Student) (rc : OID → Bool) (raw : String) (i : OID)
    (x : Student)
    (h1 : toObjectId raw = some i)
    (hnd : (l.map (fun y => y.id)).Nodup)
    (h2 : l.find? (fun y => y.id == i) = some x) :
    (rc i = false →
      studentsDelete l rc raw =
        (.success 200 "Student deleted", eraseFirst (fun y => y.id == i) l) ∧
      studentsGet (eraseFirst (fun y => y.id == i) l) raw = .failure 404 "Student not found") ∧
    (rc i = true →
      studentsDelete l rc raw = (.failure 400 "Cannot delete student with existing tests", l) ∧
      studentsGet l raw = .success 200 x) := by
  have hpx := List.find?_some h2
  have hmem := List.mem_of_find?_eq_some h2
  have hany : l.any (fun y => y.id == i) = true := List.any_eq_true.mpr ⟨x, hmem, hpx⟩
  constructor
  · intro hrc
    refine ⟨by simp [studentsDelete, h1, hany, hrc], ?_⟩
    have hnone : (eraseFirst (fun y => y.id == i) l).find? (fun y => y.id == i) = none := by
      rw [List.find?_eq_none]
      intro y hy hp
      exact all_eraseFirst_nodup (fun y => y.id) i l hnd y hy (by simpa using hp)
    simp [studentsGet, h1, hnone]
  · intro hrc
    exact ⟨by simp [studentsDelete, h1, hany, hrc], by simp [studentsGet, h1, h2]⟩

/-- C3: for every existing Student, if zero Tests reference it the delete
succeeds and a subsequent get returns NotFound; if at least one Test
references it the delete fails with HTTP 400 and a subsequent get still
returns the Student unchanged.  Stated for both variants; the `Nodup`
hypothesis reflects MongoDB's uniqueness of `_id` within a collection. -/
theorem student_delete_behavior :
    (∀ (s : Normalized.Store) (raw : String) (i : OID) (x : Student),
      toObjectId raw = some i →
      (s.students.map (fun y => y.id)).Nodup →
      s.students.find? (fun y => y.id == i) = some x →
      ((s.tests.any (fun t => t.studentId == i) = false →
        Normalized.deleteStudents s raw =
          (.success 200 "Student deleted",
            { s with students := eraseFirst (fun y => y.id == i) s.students }) ∧
        Normalized.getStudentById
            { s with students := eraseFirst (fun y => y.id == i) s.students } raw =
          (.failure 404 "Student not found",
            { s with students := eraseFirst (fun y => y.id == i) s.students })) ∧
       (s.tests.any (fun t => t.studentId == i) = true →
        Normalized.deleteStudents s raw =
          (.failure 400 "Cannot delete student with existing tests", s) ∧
        Normalized.getStudentById s raw = (.success 200 x, s)))) ∧
    (∀ (s : Embedded.Store) (raw : String) (i : OID) (x : Student),
      toObjectId raw = some i →
      (s.students.map (fun y => y.id)).Nodup →
      s.students.find? (fun y => y.id == i) = some x →
      ((s.courses.any (fun c => c.tests.any (fun t => t.studentId == i)) = false →
        Embedded.deleteStudents s raw =
          (.success 200 "Student deleted",
            { s with students := eraseFirst (fun y => y.id == i) s.students }) ∧
        Embedded.getStudentById
            { s with students := eraseFirst (fun y => y.id == i) s.students } raw =
          (.failure 404 "Student not found",
            { s with students := eraseFirst (fun y => y.id == i) s.students })) ∧
       (s.courses.any (fun c => c.tests.any (fun t => t.studentId == i)) = true →
        Embedded.deleteStudents s raw =
          (.failure 400 "Cannot delete student with existing tests", s) ∧
        Embedded.getStudentById s raw = (.success 200 x, s)))) := by
  constructor
  · intro s raw i x h1 hnd h2
    have core := studentsDelete_spec s.students
      (fun j => s.tests.any (fun t => t.studentId == j)) raw i x h1 hnd h2
    constructor
    · intro hrc
      obtain ⟨hd, hg⟩ := core.1 hrc
      exact ⟨by simp [Normalized.deleteStudents, hd],
        by simp [Normalized.getStudentById, hg]⟩
    · intro hrc
      obtain ⟨hd, hg⟩ := core.2 hrc
      exact ⟨by simp [Normalized.deleteStudents, hd],
        by simp [Normalized.getStudentById, hg]⟩
  · intro s raw i x h1 hnd h2
    have core := studentsDelete_spec s.students
      (fun j => s.courses.any (fun c => c.tests.any (fun t => t.studentId == j))) raw i x h1 hnd h2
    constructor
    · intro hrc
      obtain ⟨hd, hg⟩ := core.1 hrc
      exact ⟨by simp [Embedded.deleteStudents, hd],
        by simp [Embedded.getStudentById, hg]⟩
    · intro hrc
      obtain ⟨hd, hg⟩ := core.2 hrc
      exact ⟨by simp [Embedded.deleteStudents, hd],
        by simp [Embedded.getStudentById, hg]⟩

/-- Witness for C3 at a concrete store: `sampleStudent` has two referencing
tests in `sampleStoreN`, so the delete is rejected and the student is still
retrievable. -/
theorem student_delete_behavior_witness :
    Normalized.deleteStudents sampleStoreN oidA =
      (.failure 400 "Cannot delete student with existing tests", sampleStoreN) ∧
    Normalized.getStudentById sampleStoreN oidA = (.success 200 sampleStudent, sampleStoreN) :=
  (student_delete_behavior.1 sampleStoreN oidA oidA sampleStudent
    (by decide) (by decide) (by decide)).2 (by decide)

/-- C5: a Student update whose payload contains only `grade` changes the
grade and leaves `firstName`, `lastName`, `studentNumber` and `homeroom`
(and the id) exactly as before, both in the response and in the store.
Stated for both variants. -/
theorem partial_update_grade_only :
    (∀ (s : Normalized.Store) (raw : String) (i : OID) (x : Student) (g : ℚ),
      toObjectId raw = some i →
      s.students.find? (fun y => y.id == i) = some x →
      (Normalized.putStudents s raw (gradeOnlyBody g)).1 =
        .success 200 { x with grade := g } ∧
      ((Normalized.putStudents s raw (gradeOnlyBody g)).2).students.find?
          (fun y => y.id == i) = some { x with grade := g }) ∧
    (∀ (s : Embedded.Store) (raw : String) (i : OID) (x : Student) (g : ℚ),
      toObjectId raw = some i →
      s.students.find? (fun y => y.id == i) = some x →
      (Embedded.putStudents s raw (gradeOnlyBody g)).1 =
        .success 200 { x with grade := g } ∧
      ((Embedded.putStudents s raw (gradeOnlyBody g)).2).students.find?
          (fun y => y.id == i) = some { x with grade := g }) := by
  constructor
  · intro s raw i x g h1 h2
    obtain ⟨hu, hf⟩ := studentsUpdate_gradeOnly s.students raw i x g h1 h2
    exact ⟨by simp [Normalized.putStudents, hu], by simp [Normalized.putStudents, hu, hf]⟩
  · intro s raw i x g h1 h2
    obtain ⟨hu, hf⟩ := studentsUpdate_gradeOnly s.students raw i x g h1 h2
    exact ⟨by simp [Embedded.putStudents, hu], by simp [Embedded.putStudents, hu, hf]⟩

/-- Witness for C5 at a concrete store: updating only the grade of
`sampleStudent` to 12 touches nothing else. -/
theorem partial_update_grade_only_witness :
    (Normalized.putStudents sampleStoreN oidA (gradeOnlyBody 12)).1 =
      .success 200 { sampleStudent with grade := 12 } ∧
    ((Normalized.putStudents sampleStoreN oidA (gradeOnlyBody 12)).2).students.find?
        (fun y => y.id == oidA) = some { sampleStudent with grade := 12 } :=
  partial_update_grade_only.1 sampleStoreN oidA oidA sampleStudent 12 (by decide) (by decide)

/-- C7: whenever a Student create succeeds, getting the entity by the
identifier of the record the create returned yields exactly that record.
The freshness hypothesis reflects MongoDB generating an unused `_id`; the
`toObjectId` hypothesis reflects that generated ids stringify canonically.
Stated for both variants. -/
theorem create_then_get_roundtrip :
    (∀ (s : Normalized.Store) (b : StudentBody) (newId : OID) (created : Student)
        (s2 : Normalized.Store),
      Normalized.postStudents s b newId = (.success 201 created, s2) →
      toObjectId newId = some newId →
      (∀ y ∈ s.students, (y.id == newId) = false) →
      Normalized.getStudentById s2 newId = (.success 200 created, s2)) ∧
    (∀ (s : Embedded.Store) (b : StudentBody) (newId : OID) (created : Student)
        (s2 : Embedded.Store),
      Embedded.postStudents s b newId = (.success 201 created, s2) →
      toObjectId newId = some newId →
      (∀ y ∈ s.students, (y.id == newId) = false) →
      Embedded.getStudentById s2 newId = (.success 200 created, s2)) := by
  constructor
  · intro s b newId created s2 h hid hfresh
    simp only [Normalized.postStudents] at h
    rw [Prod.mk.injEq] at h
    obtain ⟨h1, h2⟩ := h
    have hc : studentsCreate s.students b newId =
        (.success 201 created, (studentsCreate s.students b newId).2) := by
      calc studentsCreate s.students b newId
          = ((studentsCreate s.students b newId).1, (studentsCreate s.students b newId).2) :=
            (@Prod.mk.eta _ _ _).symm
        _ = (.success 201 created, (studentsCreate s.students b newId).2) := by rw [h1]
    have hg := studentsCreate_get s.students b newId created _ hc hid hfresh
    subst h2
    simp [Normalized.getStudentById, hg]
  · intro s b newId created s2 h hid hfresh
    simp only [Embedded.postStudents] at h
    rw [Prod.mk.injEq] at h
    obtain ⟨h1, h2⟩ := h
    have hc : studentsCreate s.students b newId =
        (.success 201 created, (studentsCreate s.students b newId).2) := by
      calc studentsCreate s.students b newId
          = ((studentsCreate s.students b newId).1, (studentsCreate s.students b newId).2) :=
            (@Prod.mk.eta _ _ _).symm
        _ = (.success 201 created, (studentsCreate s.students b newId).2) := by rw [h1]
    have hg := studentsCreate_get s.students b newId created _ hc hid hfresh
    subst h2
    simp [Embedded.getStudentById, hg]

/-- Witness for C7: creating a student in the empty normalized store and
getting it back by the returned id. -/
theorem create_then_get_roundtrip_witness :
    Normalized.getStudentById
        ⟨[], [⟨oidF, "Ann", "Lee", 11, "S100", none⟩], [], []⟩ oidF =
      (.success 200 ⟨oidF, "Ann", "Lee", 11, "S100", none⟩,
        ⟨[], [⟨oidF, "Ann", "Lee", 11, "S100", none⟩], [], []⟩) :=
  create_then_get_roundtrip.1 Normalized.emptyStore
    ⟨some "Ann", some "Lee", some 11, some "S100", none⟩ oidF
    ⟨oidF, "Ann", "Lee", 11, "S100", none⟩
    ⟨[], [⟨oidF, "Ann", "Lee", 11, "S100", none⟩], [], []⟩
    (by decide) (by decide) (by decide)

/-- C8: every endpoint taking an `:id` path parameter rejects any parameter
string that is not a canonical ObjectId rendering with HTTP 400 and error
message `Invalid id format`, leaving the store exactly unchanged — the
rejection depends only on the parameter, never on the store. -/
theorem invalid_id_gate :
    ∀ raw : String, toObjectId raw = none →
      (∀ s : Normalized.Store,
        Normalized.getTeacherById s raw = (.failure 400 "Invalid id format", s) ∧
        (∀ b, Normalized.putTeachers s raw b = (.failure 400 "Invalid id format", s)) ∧
        Normalized.deleteTeachers s raw = (.failure 400 "Invalid id format", s) ∧
        Normalized.getStudentById s raw = (.failure 400 "Invalid id format", s) ∧
        (∀ b, Normalized.putStudents s raw b = (.failure 400 "Invalid id format", s)) ∧
        Normalized.deleteStudents s raw = (.failure 400 "Invalid id format", s) ∧
        Normalized.getCourseById s raw = (.failure 400 "Invalid id format", s) ∧
        (∀ b, Normalized.putCourses s raw b = (.failure 400 "Invalid id format", s)) ∧
        Normalized.deleteCourses s raw = (.failure 400 "Invalid id format", s) ∧
        Normalized.getTestById s raw = (.failure 400 "Invalid id format", s) ∧
        Normalized.deleteTests s raw = (.failure 400 "Invalid id format", s) ∧
        Normalized.getStudentTests s raw = (.failure 400 "Invalid id format", s) ∧
        Normalized.getCourseTests s raw = (.failure 400 "Invalid id format", s) ∧
        Normalized.getStudentAverage s raw = (.failure 400 "Invalid id format", s)) ∧
      (∀ s : Embedded.Store,
        Embedded.getStudentById s raw = (.failure 400 "Invalid id format", s) ∧
        (∀ b, Embedded.putStudents s raw b = (.failure 400 "Invalid id format", s)) ∧
        Embedded.deleteStudents s raw = (.failure 400 "Invalid id format", s) ∧
        Embedded.getCourseById s raw = (.failure 400 "Invalid id format", s) ∧
        (∀ b, Embedded.putCourses s raw b = (.failure 400 "Invalid id format", s)) ∧
        Embedded.deleteCourses s raw = (.failure 400 "Invalid id format", s) ∧
        Embedded.getTestById s raw = (.failure 400 "Invalid id format", s) ∧
        Embedded.deleteTests s raw = (.failure 400 "Invalid id format", s) ∧
        Embedded.getStudentTests s raw = (.failure 400 "Invalid id format", s) ∧
        Embedded.getCourseTests s raw = (.failure 400 "Invalid id format", s) ∧
        Embedded.getStudentAverage s raw = (.failure 400 "Invalid id format", s)) := by
  intro raw h
  constructor
  · intro s
    refine ⟨?_, ?_, ?_, ?_, ?_, ?_, ?_, ?_, ?_, ?_, ?_, ?_, ?_, ?_⟩ <;>
      simp [Normalized.getTeacherById, Normalized.putTeachers, Normalized.deleteTeachers,
        Normalized.getStudentById, Normalized.putStudents, Normalized.deleteStudents,
        Normalized.getCourseById, Normalized.putCourses, Normalized.deleteCourses,
        Normalized.getTestById, Normalized.deleteTests, Normalized.getStudentTests,
        Normalized.getCourseTests, Normalized.getStudentAverage,
        studentsGet, studentsUpdate, studentsDelete, h]
  · intro s
    refine ⟨?_, ?_, ?_, ?_, ?_, ?_, ?_, ?_, ?_, ?_, ?_⟩ <;>
      simp [Embedded.getStudentById, Embedded.putStudents, Embedded.deleteStudents,
        Embedded.getCourseById, Embedded.putCourses, Embedded.deleteCourses,
        Embedded.getTestById, Embedded.deleteTests, Embedded.getStudentTests,
        Embedded.getCourseTests, Embedded.getStudentAverage,
        studentsGet, studentsUpdate, studentsDelete, h]

/-- Witness for C8: the non-canonical parameter `nope` is rejected by
`GET /students/:id` on the empty store. -/
theorem invalid_id_gate_witness :
    toObjectId "nope" = none ∧
    Normalized.getStudentById Normalized.emptyStore "nope" =
      (.failure 400 "Invalid id format", Normalized.emptyStore) :=
  ⟨by decide, (((invalid_id_gate "nope" (by decide)).1) Normalized.emptyStore).2.2.2.1⟩

theorem sortByKey_nil {α κ : Type} [LinearOrder κ] (key : α → κ) :
    sortByKey key ([] : List α) = [] := rfl

/-- C9: for a well-formed student id that matches no existing Student, in
any state satisfying the referential-integrity invariant, the per-student
test listing answers HTTP 200 with an empty list and the average route
answers HTTP 200 with average 0 — indistinguishable from an existing
student with no tests.  Stated for both variants. -/
theorem absent_student_subroutes :
    (∀ (s : Normalized.Store) (raw : String) (i : OID),
      toObjectId raw = some i →
      Normalized.Integrity s →
      s.students.any (fun x => x.id == i) = false →
      Normalized.getStudentTests s raw = (.success 200 [], s) ∧
      Normalized.getStudentAverage s raw = (.success 200 0, s)) ∧
    (∀ (s : Embedded.Store) (raw : String) (i : OID),
      toObjectId raw = some i →
      Embedded.Integrity s →
      s.students.any (fun x => x.id == i) = false →
      Embedded.getStudentTests s raw = (.success 200 [], s) ∧
      Embedded.getStudentAverage s raw = (.success 200 0, s)) := by
  constructor
  · intro s raw i h1 hint hno
    have hfil : s.tests.filter (fun t => t.studentId == i) = [] := by
      rw [List.filter_eq_nil_iff]
      intro t ht hp
      have hti : t.studentId = i := by simpa using hp
      have hres := (hint.1 t ht).1
      rw [hti, hno] at hres
      cases hres
    constructor
    · simp [Normalized.getStudentTests, h1, hfil, sortByKey_nil]
    · simp [Normalized.getStudentAverage, h1, hfil]
  · intro s raw i h1 hint hno
    have hcf : s.courses.filter (fun c => c.tests.any (fun t => t.studentId == i)) = [] := by
      rw [List.filter_eq_nil_iff]
      intro c hc hp
      rw [List.any_eq_true] at hp
      obtain ⟨t, ht, hti'⟩ := hp
      have hti : t.studentId = i := by simpa using hti'
      have hres := hint c hc t ht
      rw [hti, hno] at hres
      cases hres
    constructor
    · simp [Embedded.getStudentTests, h1, hcf]
    · simp [Embedded.getStudentAverage, h1, hcf]

/-- Witness for C9: `sampleStoreN` satisfies integrity, id `oidF` matches no
student, and both sub-routes answer 200 with the empty result. -/
theorem absent_student_subroutes_witness :
    Normalized.getStudentTests sampleStoreN oidF = (.success 200 [], sampleStoreN) ∧
    Normalized.getStudentAverage sampleStoreN oidF = (.success 200 0, sampleStoreN) :=
  absent_student_subroutes.1 sampleStoreN oidF oidF (by decide) (by decide) (by decide)

theorem flatten_filter_courses (q : Embedded.ETest → Bool) :
    ∀ cs : List Embedded.ECourse,
      ((cs.filter (fun c => c.tests.any q)).map (fun c => c.tests.filter q)).flatten
        = (cs.map (fun c => c.tests.filter q)).flatten := by
  intro cs
  induction cs with
  | nil => rfl
  | cons c cs ih =>
    by_cases h : c.tests.any q = true
    · simp [List.filter_cons, h, ih]
    · have h' : c.tests.any q = false := by simpa using h
      have hnil : c.tests.filter q = [] := by
        rw [List.filter_eq_nil_iff]
        intro t ht hq
        have hx : c.tests.any q = true := List.any_eq_true.mpr ⟨t, ht, hq⟩
        rw [h'] at hx
        cases hx
      simp [List.filter_cons, h', hnil, ih]

/-- C4: the average route collects exactly the tests referencing the
student, returns `mean(mark/outOf * 100)` rounded to two decimal places,
returns the defined value 0 for zero tests, and on tests 8/10 and 9/10
returns 85.  Stated for both variants against the spec-side
`specAverage`. -/
theorem average_route_correct :
    (∀ (s : Normalized.Store) (raw : String) (i : OID),
      toObjectId raw = some i →
      Normalized.getStudentAverage s raw =
        (.success 200 (specAverage ((s.tests.filter (fun t => t.studentId == i)).map
          (fun t => (t.mark, t.outOf)))), s)) ∧
    (∀ (s : Embedded.Store) (raw : String) (i : OID),
      toObjectId raw = some i →
      Embedded.getStudentAverage s raw =
        (.success 200 (specAverage
          (((s.courses.map (fun c => c.tests.filter (fun t => t.studentId == i))).flatten).map
            (fun t => (t.mark, t.outOf)))), s)) ∧
    Normalized.getStudentAverage sampleStoreN oidA = (.success 200 85, sampleStoreN) := by
  have h85 : round2 ((0 + (8:ℚ)/10*100 + 9/10*100)/2) = 85 := by
    have harg : ((0 + (8:ℚ)/10*100 + 9/10*100)/2) = 85 := by norm_num
    rw [harg]
    unfold round2
    have hfl : ⌊(85:ℚ) * 100 + 1/2⌋ = 8500 := by
      rw [Int.floor_eq_iff]
      norm_num
    rw [hfl]
    norm_num
  refine ⟨?_, ?_, ?_⟩
  · intro s raw i h1
    cases hts : s.tests.filter (fun t => t.studentId == i) with
    | nil => simp [Normalized.getStudentAverage, h1, hts, specAverage]
    | cons a l =>
      simp [Normalized.getStudentAverage, h1, hts, specAverage, percentFold,
        foldl_add_percent, List.map_map, Function.comp_def]
  · intro s raw i h1
    have hflat := flatten_filter_courses (fun t => t.studentId == i) s.courses
    cases hts : (s.courses.map (fun c => c.tests.filter (fun t => t.studentId == i))).flatten with
    | nil =>
      rw [hts] at hflat
      simp [Embedded.getStudentAverage, h1, hflat, specAverage]
    | cons a l =>
      rw [hts] at hflat
      simp [Embedded.getStudentAverage, h1, hflat, hts, specAverage, Embedded.percentFoldE,
        foldl_add_percent, List.map_map, Function.comp_def]
  · have h1 : toObjectId oidA = some oidA := by decide
    have hfil : sampleStoreN.tests.filter (fun t => t.studentId == oidA) =
        [sampleTestN1, sampleTestN2] := by decide
    simp [Normalized.getStudentAverage, h1, hfil, percentFold, sampleTestN1, sampleTestN2]
    convert h85 using 2
    norm_num

/-- Witness for C4: the general refinement applied at `sampleStoreN`, whose
two tests for `sampleStudent` are 8/10 and 9/10. -/
theorem average_route_correct_witness :
    Normalized.getStudentAverage sampleStoreN oidA =
      (.success 200 (specAverage ((sampleStoreN.tests.filter
        (fun t => t.studentId == oidA)).map (fun t => (t.mark, t.outOf)))), sampleStoreN) :=
  average_route_correct.1 sampleStoreN oidA oidA (by decide)

/-- C10: `PUT /courses/:id` in the embedded variant strips `tests` (and
`id`/`_id`) from the payload, so for every existing course and every
payload the course's embedded test sequence after the request equals the
sequence before it and the student collection is untouched; a payload
passing update validation is applied with HTTP 200 (its `tests` key
ignored), and one setting a required String path to the empty string is
rejected with a 400 ValidationError, leaving the store unchanged. -/
theorem course_update_preserves_tests :
    ∀ (s : Embedded.Store) (raw : String) (i : OID) (c : Embedded.ECourse)
      (b : Embedded.ECourseBody),
      toObjectId raw = some i →
      s.courses.find? (fun y => y.id == i) = some c →
      (∃ c2, ((Embedded.putCourses s raw b).2).courses.find? (fun y => y.id == i) = some c2 ∧
        c2.tests = c.tests) ∧
      ((Embedded.putCourses s raw b).2).students = s.students ∧
      (Embedded.courseUpdateValid b = true →
        Embedded.putCourses s raw b =
          (.success 200 (Embedded.applyCourseUpdate b c), { s with
            courses := updateFirst (fun y => y.id == i) (Embedded.applyCourseUpdate b) s.courses }) ∧
        (Embedded.applyCourseUpdate b c).tests = c.tests) ∧
      (Embedded.courseUpdateValid b = false →
        Embedded.putCourses s raw b = (.failure 400 "ValidationError", s)) := by
  intro s raw i c b h1 h2
  have hfc := List.find?_some h2
  have hpc : ((Embedded.applyCourseUpdate b c).id == i) = true := by
    have hid : (Embedded.applyCourseUpdate b c).id = c.id := rfl
    rw [hid]
    exact hfc
  have hfu := find?_updateFirst (fun y => y.id == i) (Embedded.applyCourseUpdate b) h2 hpc
  by_cases hv : Embedded.courseUpdateValid b = true
  · refine ⟨⟨Embedded.applyCourseUpdate b c, ?_, rfl⟩, ?_, fun _ => ⟨?_, rfl⟩, fun hf => ?_⟩
    · simp [Embedded.putCourses, h1, hv, h2, hfu]
    · simp [Embedded.putCourses, h1, hv, h2]
    · simp [Embedded.putCourses, h1, hv, h2]
    · rw [hv] at hf
      cases hf
  · have hv' : Embedded.courseUpdateValid b = false := by simpa using hv
    refine ⟨⟨c, ?_, rfl⟩, ?_, fun ht => ?_, fun _ => ?_⟩
    · simp [Embedded.putCourses, h1, hv', h2]
    · simp [Embedded.putCourses, h1, hv']
    · rw [hv'] at ht
      cases ht
    · simp [Embedded.putCourses, h1, hv']

/-- Witness for C10: updating `sampleCourseE` with a valid payload that
both changes `code` and tries to overwrite `tests` with the empty list
leaves the embedded tests and the student collection exactly as they
were. -/
theorem course_update_preserves_tests_witness :
    Embedded.courseUpdateValid ⟨some "X", none, none, none, none, none, some []⟩ = true ∧
    ((Embedded.putCourses sampleStoreE oidB
        ⟨some "X", none, none, none, none, none, some []⟩).2).students =
      sampleStoreE.students ∧
    (Embedded.applyCourseUpdate
        ⟨some "X", none, none, none, none, none, some []⟩ sampleCourseE).tests =
      sampleCourseE.tests :=
  let h := course_update_preserves_tests sampleStoreE oidB oidB sampleCourseE
    ⟨some "X", none, none, none, none, none, some []⟩ (by decide) (by decide)
  ⟨by decide, h.2.1, (h.2.2.1 (by decide)).2⟩

theorem postTestsN_cases (s : Normalized.Store) (b : TestBody) (newId : OID) :
    (∃ t, (Normalized.postTests s b newId).1 = .success 201 t) ∨
    (∃ msg, Normalized.postTests s b newId = (.failure 400 msg, s)) := by
  unfold Normalized.postTests
  split
  · exact Or.inr ⟨_, rfl⟩
  · split
    · exact Or.inr ⟨_, rfl⟩
    · split
      · exact Or.inr ⟨_, rfl⟩
      · split
        · split
          · exact Or.inl ⟨_, rfl⟩
          · exact Or.inr ⟨_, rfl⟩
        · exact Or.inr ⟨_, rfl⟩

theorem postTestsE_cases (s : Embedded.Store) (b : TestBody) (newId : OID) :
    (∃ t, (Embedded.postTests s b newId).1 = .success 201 t) ∨
    (∃ msg, Embedded.postTests s b newId = (.failure 400 msg, s)) := by
  unfold Embedded.postTests
  split
  · exact Or.inr ⟨_, rfl⟩
  · split
    · exact Or.inr ⟨_, rfl⟩
    · split
      · exact Or.inr ⟨_, rfl⟩
      · split
        · split
          · exact Or.inr ⟨_, rfl⟩
          · exact Or.inl ⟨_, rfl⟩
        · exact Or.inr ⟨_, rfl⟩

theorem postTestsN_success_resolves (s : Normalized.Store) (b : TestBody) (newId : OID)
    (t : TestRec) (h : (Normalized.postTests s b newId).1 = .success 201 t) :
    Normalized.resolvesStudentRef s b.studentId = true ∧
    Normalized.resolvesCourseRef s b.courseId = true := by
  rcases hbs : b.studentId with _ | sstr
  · unfold Normalized.postTests at h
    rw [hbs] at h
    simp [falsy] at h
  · rcases hbc : b.courseId with _ | cstr
    · unfold Normalized.postTests at h
      rw [hbc] at h
      simp [falsy] at h
    · unfold Normalized.postTests at h
      rw [hbs, hbc] at h
      split at h
      · simp at h
      · simp only [Option.getD_some] at h
        rcases hts : toObjectId sstr with _ | sId
        · rw [hts] at h
          simp at h
        · rw [hts] at h
          rcases htc : toObjectId cstr with _ | cId
          · rw [htc] at h
            simp at h
          · rw [htc] at h
            by_cases hsa : s.students.any (fun x => x.id == sId) = true
            · by_cases hca : s.courses.any (fun c => c.id == cId) = true
              · constructor
                · simp [Normalized.resolvesStudentRef, hbs, hts, hsa]
                · simp [Normalized.resolvesCourseRef, hbc, htc, hca]
              · simp [hsa, hca] at h
            · simp [hsa] at h

theorem postTestsE_success_resolves (s : Embedded.Store) (b : TestBody) (newId : OID)
    (t : TestRec) (h : (Embedded.postTests s b newId).1 = .success 201 t) :
    Embedded.resolvesStudentRef s b.studentId = true ∧
    Embedded.resolvesCourseRef s b.courseId = true := by
  rcases hbs : b.studentId with _ | sstr
  · unfold Embedded.postTests at h
    rw [hbs] at h
    simp [falsy] at h
  · rcases hbc : b.courseId with _ | cstr
    · unfold Embedded.postTests at h
      rw [hbc] at h
      simp [falsy] at h
    · unfold Embedded.postTests at h
      rw [hbs, hbc] at h
      split at h
      · simp at h
      · simp only [Option.getD_some] at h
        rcases hts : toObjectId sstr with _ | sId
        · rw [hts] at h
          simp at h
        · rw [hts] at h
          rcases htc : toObjectId cstr with _ | cId
          · rw [htc] at h
            simp at h
          · rw [htc] at h
            by_cases hsa : s.students.any (fun x => x.id == sId) = true
            · rcases hcf : s.courses.find? (fun c => c.id == cId) with _ | c
              · simp [hsa, hcf] at h
              · constructor
                · simp [Embedded.resolvesStudentRef, hbs, hts, hsa]
                · have hcc := List.find?_some hcf
                  have hcm := List.mem_of_find?_eq_some hcf
                  have hca : s.courses.any (fun c => c.id == cId) = true :=
                    List.any_eq_true.mpr ⟨c, hcm, hcc⟩
                  simp [Embedded.resolvesCourseRef, hbc, htc, hca]
            · simp [hsa] at h

/-- C2: a Test-creation request whose student or course reference does not
resolve (absent field, non-canonical id, or no such record) fails with
HTTP 400 and leaves the store — in particular every test collection and
every course's embedded test sequence — exactly unchanged.  Stated for
both variants. -/
theorem test_create_invalid_reference_rejected :
    (∀ (s : Normalized.Store) (b : TestBody) (newId : OID),
      (Normalized.resolvesStudentRef s b.studentId = false ∨
       Normalized.resolvesCourseRef s b.courseId = false) →
      ∃ msg, Normalized.postTests s b newId = (.failure 400 msg, s)) ∧
    (∀ (s : Embedded.Store) (b : TestBody) (newId : OID),
      (Embedded.resolvesStudentRef s b.studentId = false ∨
       Embedded.resolvesCourseRef s b.courseId = false) →
      ∃ msg, Embedded.postTests s b newId = (.failure 400 msg, s)) := by
  constructor
  · intro s b newId hbad
    rcases postTestsN_cases s b newId with ⟨t, ht⟩ | ⟨msg, hm⟩
    · obtain ⟨hs, hc⟩ := postTestsN_success_resolves s b newId t ht
      rcases hbad with hb | hb
      · rw [hs] at hb
        cases hb
      · rw [hc] at hb
        cases hb
    · exact ⟨msg, hm⟩
  · intro s b newId hbad
    rcases postTestsE_cases s b newId with ⟨t, ht⟩ | ⟨msg, hm⟩
    · obtain ⟨hs, hc⟩ := postTestsE_success_resolves s b newId t ht
      rcases hbad with hb | hb
      · rw [hs] at hb
        cases hb
      · rw [hc] at hb
        cases hb
    · exact ⟨msg, hm⟩

/-- Witness for C2: in the empty normalized store the student reference
`oidA` resolves to nothing, so the create is rejected and the store stays
empty. -/
theorem test_create_invalid_reference_rejected_witness :
    Normalized.resolvesStudentRef Normalized.emptyStore (some oidA) = false ∧
    ∃ msg, Normalized.postTests Normalized.emptyStore
        ⟨some oidA, some oidB, some "quiz", some "2024-01-10", some 8, some 10, none⟩ oidD =
      (.failure 400 msg, Normalized.emptyStore) :=
  ⟨by decide,
    test_create_invalid_reference_rejected.1 Normalized.emptyStore
      ⟨some oidA, some oidB, some "quiz", some "2024-01-10", some 8, some 10, none⟩ oidD
      (Or.inl (by decide))⟩

/-- C6 counterexample: the embedded variant sorts no test listing.
`sampleStoreE` stores a test dated 2024-02-10 (id `ff…`) before one dated
2024-01-10 (id `dd…`); both the flat `GET /tests` and the per-course
`GET /courses/:id/tests` return them in stored order — the same two-element
list, sorted neither by date nor by identifier. -/
theorem tests_listing_order_counterexample :
    Embedded.getTests sampleStoreE =
      (.success 200 [Embedded.etestOut oidB sampleETest1, Embedded.etestOut oidB sampleETest2],
        sampleStoreE) ∧
    Embedded.getCourseTests sampleStoreE oidB =
      (.success 200 [Embedded.etestOut oidB sampleETest1, Embedded.etestOut oidB sampleETest2],
        sampleStoreE) ∧
    ¬ ([Embedded.etestOut oidB sampleETest1, Embedded.etestOut oidB sampleETest2].Pairwise
        (fun a b => a.date ≤ b.date)) ∧
    ¬ ([Embedded.etestOut oidB sampleETest1, Embedded.etestOut oidB sampleETest2].Pairwise
        (fun a b => a.id ≤ b.id)) := by
  refine ⟨by decide, by decide, ?_, ?_⟩
  · intro hp
    have hle := (List.pairwise_cons.mp hp).1 _ (List.mem_cons_self _ _)
    rw [String.le_iff_toList_le] at hle
    revert hle
    decide
  · intro hp
    have hle := (List.pairwise_cons.mp hp).1 _ (List.mem_cons_self _ _)
    rw [String.le_iff_toList_le] at hle
    revert hle
    decide

/-- C6 amended: Students and Teachers are listed sorted by last then first
name and Courses by code ascending in both variants; the normalized
variant lists Tests sorted by date in its flat, per-student and per-course
listings; the embedded variant sorts no test listing — the flat
`GET /tests` returns tests grouped by course in collection-storage order
with each course's tests in stored insertion order, and
`GET /courses/:id/tests` returns the course's embedded tests in stored
insertion order; every list handler is a pure function of the store, so
repeated calls with no intervening writes return the same sequence. -/
theorem listing_order :
    (∀ s : Normalized.Store, ∃ l, Normalized.getStudents s = (.success 200 l, s) ∧
      l.Pairwise (fun a b => nameKey a.lastName a.firstName ≤ nameKey b.lastName b.firstName) ∧
      l.Perm s.students) ∧
    (∀ s : Normalized.Store, ∃ l, Normalized.getTeachers s = (.success 200 l, s) ∧
      l.Pairwise (fun a b => nameKey a.lastName a.firstName ≤ nameKey b.lastName b.firstName) ∧
      l.Perm s.teachers) ∧
    (∀ s : Normalized.Store, ∃ l, Normalized.getCourses s = (.success 200 l, s) ∧
      l.Pairwise (fun a b => a.code ≤ b.code) ∧ l.Perm s.courses) ∧
    (∀ s : Normalized.Store, ∃ l, Normalized.getTests s = (.success 200 l, s) ∧
      l.Pairwise (fun a b => a.date ≤ b.date) ∧ l.Perm s.tests) ∧
    (∀ s : Embedded.Store, ∃ l, Embedded.getStudents s = (.success 200 l, s) ∧
      l.Pairwise (fun a b => nameKey a.lastName a.firstName ≤ nameKey b.lastName b.firstName) ∧
      l.Perm s.students) ∧
    (∀ s : Embedded.Store, ∃ l, Embedded.getCourses s = (.success 200 l, s) ∧
      l.Pairwise (fun a b => a.code ≤ b.code) ∧ l.Perm s.courses) ∧
    (∀ s : Embedded.Store, Embedded.getTests s =
      (.success 200 ((s.courses.map (fun c => c.tests.map (Embedded.etestOut c.id))).flatten),
        s)) ∧
    (∀ (s : Normalized.Store) (raw : String) (i : OID), toObjectId raw = some i →
      ∃ l, Normalized.getStudentTests s raw = (.success 200 l, s) ∧
        l.Pairwise (fun a b => a.date ≤ b.date) ∧
        l.Perm (s.tests.filter (fun t => t.studentId == i))) ∧
    (∀ (s : Normalized.Store) (raw : String) (i : OID), toObjectId raw = some i →
      s.courses.any (fun c => c.id == i) = true →
      ∃ l, Normalized.getCourseTests s raw = (.success 200 l, s) ∧
        l.Pairwise (fun a b => a.date ≤ b.date) ∧
        l.Perm (s.tests.filter (fun t => t.courseId == i))) ∧
    (∀ (s : Embedded.Store) (raw : String) (i : OID) (c : Embedded.ECourse),
      toObjectId raw = some i →
      s.courses.find? (fun y => y.id == i) = some c →
      Embedded.getCourseTests s raw =
        (.success 200 (c.tests.map (Embedded.etestOut c.id)), s)) := by
  refine ⟨?_, ?_, ?_, ?_, ?_, ?_, fun s => rfl, ?_, ?_, ?_⟩
  · intro s
    exact ⟨_, rfl, sortByKey_sorted _ _, sortByKey_perm _ _⟩
  · intro s
    exact ⟨_, rfl, sortByKey_sorted _ _, sortByKey_perm _ _⟩
  · intro s
    exact ⟨_, rfl, sortByKey_sorted _ _, sortByKey_perm _ _⟩
  · intro s
    exact ⟨_, rfl, sortByKey_sorted _ _, sortByKey_perm _ _⟩
  · intro s
    exact ⟨_, rfl, sortByKey_sorted _ _, sortByKey_perm _ _⟩
  · intro s
    exact ⟨_, rfl, sortByKey_sorted _ _, sortByKey_perm _ _⟩
  · intro s raw i h
    refine ⟨sortByKey (fun t => t.date) (s.tests.filter (fun t => t.studentId == i)),
      ?_, sortByKey_sorted _ _, sortByKey_perm _ _⟩
    simp [Normalized.getStudentTests, h]
  · intro s raw i h hc
    refine ⟨sortByKey (fun t => t.date) (s.tests.filter (fun t => t.courseId == i)),
      ?_, sortByKey_sorted _ _, sortByKey_perm _ _⟩
    simp [Normalized.getCourseTests, h, hc]
  · intro s raw i c h hf
    simp [Embedded.getCourseTests, h, hf]

/-- Witness for the amended C6 at concrete stores: the per-student and
per-course listings of `sampleStoreN` and the stored-order per-course
listing of `sampleStoreE`. -/
theorem listing_order_witness :
    (∃ l, Normalized.getStudentTests sampleStoreN oidA = (.success 200 l, sampleStoreN) ∧
      l.Pairwise (fun a b => a.date ≤ b.date) ∧
      l.Perm (sampleStoreN.tests.filter (fun t => t.studentId == oidA))) ∧
    (∃ l, Normalized.getCourseTests sampleStoreN oidB = (.success 200 l, sampleStoreN) ∧
      l.Pairwise (fun a b => a.date ≤ b.date) ∧
      l.Perm (sampleStoreN.tests.filter (fun t => t.courseId == oidB))) ∧
    Embedded.getCourseTests sampleStoreE oidB =
      (.success 200 (sampleCourseE.tests.map (Embedded.etestOut sampleCourseE.id)),
        sampleStoreE) :=
  ⟨listing_order.2.2.2.2.2.2.2.1 sampleStoreN oidA oidA (by decide),
   listing_order.2.2.2.2.2.2.2.2.1 sampleStoreN oidB oidB (by decide) (by decide),
   listing_order.2.2.2.2.2.2.2.2.2 sampleStoreE oidB oidB sampleCourseE
     (by decide) (by decide)⟩

theorem integrityN_postTeachers (s : Normalized.Store) (b : Normalized.TeacherBody)
    (newId : OID) (h : Normalized.Integrity s) :
    Normalized.Integrity (Normalized.postTeachers s b newId).2 := by
  obtain ⟨h1, h2⟩ := h
  unfold Normalized.postTeachers
  split
  · exact ⟨h1, h2⟩
  · constructor
    · intro t ht
      exact h1 t ht
    · intro c hc
      have hx := h2 c hc
      simp [List.any_append, hx]

theorem integrityN_putTeachers (s : Normalized.Store) (raw : String)
    (b : Normalized.TeacherBody) (h : Normalized.Integrity s) :
    Normalized.Integrity (Normalized.putTeachers s raw b).2 := by
  obtain ⟨h1, h2⟩ := h
  unfold Normalized.putTeachers
  cases hio : toObjectId raw with
  | none =>
    simp only [hio]
    exact ⟨h1, h2⟩
  | some i =>
    simp only [hio]
    by_cases hv : Normalized.teacherUpdateValid b = true
    · simp only [hv, if_true]
      cases hf : s.teachers.find? (fun x => x.id == i) with
      | none =>
        simp only [hf]
        exact ⟨h1, h2⟩
      | some t0 =>
        simp only [hf]
        constructor
        · intro t ht
          exact h1 t ht
        · intro c hc
          exact (any_updateFirst_of_keyFixed (fun x => x.id == i) (Normalized.applyTeacherUpdate b)
            (fun x => x.id) (fun _ => rfl) c.teacherId s.teachers).trans (h2 c hc)
    · have hv' : Normalized.teacherUpdateValid b = false := by simpa using hv
      simp only [hv', Bool.false_eq_true, if_false]
      exact ⟨h1, h2⟩

theorem integrityN_deleteTeachers (s : Normalized.Store) (raw : String)
    (h : Normalized.Integrity s) :
    Normalized.Integrity (Normalized.deleteTeachers s raw).2 := by
  obtain ⟨h1, h2⟩ := h
  unfold Normalized.deleteTeachers
  cases hio : toObjectId raw with
  | none =>
    simp only [hio]
    exact ⟨h1, h2⟩
  | some i =>
    simp only [hio]
    by_cases hex : s.teachers.any (fun x => x.id == i) = true
    · by_cases hcr : s.courses.any (fun c => c.teacherId == i) = true
      · simp only [hex, hcr, if_true]
        exact ⟨h1, h2⟩
      · have hcr' : s.courses.any (fun c => c.teacherId == i) = false := by simpa using hcr
        simp only [hex, hcr', if_true, Bool.false_eq_true, if_false]
        constructor
        · intro t ht
          exact h1 t ht
        · intro c hc
          have hne : c.teacherId ≠ i := by
            intro he
            apply hcr
            exact List.any_eq_true.mpr ⟨c, hc, by simp [he]⟩
          exact any_eraseFirst (fun x : Normalized.Teacher => x.id) i c.teacherId hne (h2 c hc)
    · have hex' : s.teachers.any (fun x => x.id == i) = false := by simpa using hex
      simp only [hex', Bool.false_eq_true, if_false]
      exact ⟨h1, h2⟩

theorem studentsCreate_any (l : List Student) (b : StudentBody) (newId : OID) (k : OID)
    (h : l.any (fun x => x.id == k) = true) :
    ((studentsCreate l b newId).2).any (fun x => x.id == k) = true := by
  rcases studentsCreate_cases l b newId with hc | ⟨st, _, hc⟩
  · rw [hc]
    exact h
  · rw [hc]
    simp [List.any_append, h]

theorem studentsUpdate_any (l : List Student) (raw : String) (b : StudentBody) (k : OID) :
    ((studentsUpdate l raw b).2).any (fun x => x.id == k) = l.any (fun x => x.id == k) := by
  unfold studentsUpdate
  cases hio : toObjectId raw with
  | none => rfl
  | some i =>
    by_cases hv : studentUpdateValid b = true
    · simp only [hv, if_true]
      cases hf : l.find? (fun x => x.id == i) with
      | none =>
        simp only [hf]
      | some st =>
        simp only [hf]
        exact any_updateFirst_of_keyFixed (fun x => x.id == i) (applyStudentUpdate b)
          (fun x => x.id) (fun _ => rfl) k l
    · have hv' : studentUpdateValid b = false := by simpa using hv
      simp only [hv', Bool.false_eq_true, if_false]

theorem studentsDelete_cases (l : List Student) (rc : OID → Bool) (raw : String) :
    (studentsDelete l rc raw).2 = l ∨
    ∃ i, toObjectId raw = some i ∧ rc i = false ∧
      (studentsDelete l rc raw).2 = eraseFirst (fun x => x.id == i) l := by
  unfold studentsDelete
  cases hio : toObjectId raw with
  | none =>
    refine Or.inl ?_
    rfl
  | some i =>
    by_cases hex : l.any (fun x => x.id == i) = true
    · by_cases hrc : rc i = true
      · refine Or.inl ?_
        simp [hex, hrc]
      · have hrc' : rc i = false := by simpa using hrc
        refine Or.inr ⟨i, rfl, hrc', ?_⟩
        simp [hex, hrc']
    · have hex' : l.any (fun x => x.id == i) = false := by simpa using hex
      refine Or.inl ?_
      simp [hex']

theorem integrityN_postStudents (s : Normalized.Store) (b : StudentBody) (newId : OID)
    (h : Normalized.Integrity s) :
    Normalized.Integrity (Normalized.postStudents s b newId).2 := by
  obtain ⟨h1, h2⟩ := h
  constructor
  · intro t ht
    refine ⟨?_, (h1 t ht).2⟩
    exact studentsCreate_any s.students b newId t.studentId (h1 t ht).1
  · intro c hc
    exact h2 c hc

theorem integrityN_putStudents (s : Normalized.Store) (raw : String) (b : StudentBody)
    (h : Normalized.Integrity s) :
    Normalized.Integrity (Normalized.putStudents s raw b).2 := by
  obtain ⟨h1, h2⟩ := h
  constructor
  · intro t ht
    refine ⟨?_, (h1 t ht).2⟩
    exact (studentsUpdate_any s.students raw b t.studentId).trans ((h1 t ht).1)
  · intro c hc
    exact h2 c hc

theorem integrityN_deleteStudents (s : Normalized.Store) (raw : String)
    (h : Normalized.Integrity s) :
    Normalized.Integrity (Normalized.deleteStudents s raw).2 := by
  obtain ⟨h1, h2⟩ := h
  rcases studentsDelete_cases s.students
      (fun j => s.tests.any (fun t => t.studentId == j)) raw with hc | ⟨i, hi, hrc, hc⟩
  · constructor
    · intro t ht
      refine ⟨?_, (h1 t ht).2⟩
      show ((studentsDelete s.students
        (fun j => s.tests.any (fun t => t.studentId == j)) raw).2).any
          (fun x => x.id == t.studentId) = true
      rw [hc]
      exact (h1 t ht).1
    · intro c hc2
      exact h2 c hc2
  · constructor
    · intro t ht
      refine ⟨?_, (h1 t ht).2⟩
      show ((studentsDelete s.students
        (fun j => s.tests.any (fun t => t.studentId == j)) raw).2).any
          (fun x => x.id == t.studentId) = true
      rw [hc]
      have hne : t.studentId ≠ i := by
        intro he
        have hx : s.tests.any (fun t2 => t2.studentId == i) = true :=
          List.any_eq_true.mpr ⟨t, ht, by simp [he]⟩
        rw [hrc] at hx
        cases hx
      exact any_eraseFirst (fun x : Student => x.id) i t.studentId hne ((h1 t ht).1)
    · intro c hc2
      exact h2 c hc2

theorem integrityN_postCourses (s : Normalized.Store) (b : Normalized.CourseBody)
    (newId : OID) (h : Normalized.Integrity s) :
    Normalized.Integrity (Normalized.postCourses s b newId).2 := by
  obtain ⟨h1, h2⟩ := h
  unfold Normalized.postCourses
  split
  · exact ⟨h1, h2⟩
  · cases hto : toObjectId (b.teacherId.getD "") with
    | none =>
      simp only [hto]
      exact ⟨h1, h2⟩
    | some t =>
      simp only [hto]
      by_cases hte : s.teachers.any (fun x => x.id == t) = true
      · simp only [hte, if_true]
        by_cases hsem : reqStrOk b.semester = true
        · simp only [hsem, if_true]
          constructor
          · intro tt htt
            refine ⟨(h1 tt htt).1, ?_⟩
            have hx := (h1 tt htt).2
            simp [List.any_append, hx]
          · intro c hc
            rcases List.mem_append.mp hc with hcl | hcr
            · exact h2 c hcl
            · have hce := List.mem_singleton.mp hcr
              subst hce
              exact hte
        · have hsem' : reqStrOk b.semester = false := by simpa using hsem
          simp only [hsem', Bool.false_eq_true, if_false]
          exact ⟨h1, h2⟩
      · have hte' : s.teachers.any (fun x => x.id == t) = false := by simpa using hte
        simp only [hte', Bool.false_eq_true, if_false]
        exact ⟨h1, h2⟩

theorem integrityN_putCoursesApply (s : Normalized.Store) (i : OID)
    (b : Normalized.CourseBody) (tOpt : Option OID)
    (hts : ∀ t2, tOpt = some t2 → s.teachers.any (fun x => x.id == t2) = true)
    (h : Normalized.Integrity s) :
    Normalized.Integrity (Normalized.putCoursesApply s i b tOpt).2 := by
  obtain ⟨h1, h2⟩ := h
  unfold Normalized.putCoursesApply
  by_cases hv : Normalized.courseUpdateValid b = true
  case neg =>
    have hv' : Normalized.courseUpdateValid b = false := by simpa using hv
    simp only [hv', Bool.false_eq_true, if_false]
    exact ⟨h1, h2⟩
  simp only [hv, if_true]
  cases hf : s.courses.find? (fun c => c.id == i) with
  | none =>
    simp only [hf]
    exact ⟨h1, h2⟩
  | some c0 =>
    simp only [hf]
    constructor
    · intro t ht
      refine ⟨(h1 t ht).1, ?_⟩
      exact (any_updateFirst_of_keyFixed (fun c => c.id == i)
        (Normalized.applyCourseUpdate b tOpt) (fun c => c.id) (fun _ => rfl)
        t.courseId s.courses).trans ((h1 t ht).2)
    · intro c hc
      rcases mem_updateFirst _ _ hc with hcl | ⟨c1, hc1, hce⟩
      · exact h2 c hcl
      · subst hce
        cases htO : tOpt with
        | none =>
          have hti : (Normalized.applyCourseUpdate b none c1).teacherId = c1.teacherId := rfl
          rw [hti]
          exact h2 c1 hc1
        | some t2 =>
          have hti : (Normalized.applyCourseUpdate b (some t2) c1).teacherId = t2 := rfl
          rw [hti]
          exact hts t2 htO

theorem integrityN_putCourses (s : Normalized.Store) (raw : String)
    (b : Normalized.CourseBody) (h : Normalized.Integrity s) :
    Normalized.Integrity (Normalized.putCourses s raw b).2 := by
  unfold Normalized.putCourses
  cases hio : toObjectId raw with
  | none =>
    simp only [hio]
    exact h
  | some i =>
    simp only [hio]
    cases hbt : b.teacherId with
    | none =>
      simp only [hbt]
      exact integrityN_putCoursesApply s i b none (fun t2 ht2 => by cases ht2) h
    | some tRaw =>
      simp only [hbt]
      cases hto : toObjectId tRaw with
      | none =>
        simp only [hto]
        exact h
      | some t =>
        simp only [hto]
        by_cases hte : s.teachers.any (fun x => x.id == t) = true
        · simp only [hte, if_true]
          refine integrityN_putCoursesApply s i b (some t) ?_ h
          intro t2 ht2
          cases ht2
          exact hte
        · have hte' : s.teachers.any (fun x => x.id == t) = false := by simpa using hte
          simp only [hte', Bool.false_eq_true, if_false]
          exact h

theorem integrityN_deleteCourses (s : Normalized.Store) (raw : String)
    (h : Normalized.Integrity s) :
    Normalized.Integrity (Normalized.deleteCourses s raw).2 := by
  obtain ⟨h1, h2⟩ := h
  unfold Normalized.deleteCourses
  cases hio : toObjectId raw with
  | none =>
    simp only [hio]
    exact ⟨h1, h2⟩
  | some i =>
    simp only [hio]
    cases hf : s.courses.find? (fun c => c.id == i) with
    | none =>
      simp only [hf]
      exact ⟨h1, h2⟩
    | some c0 =>
      simp only [hf]
      by_cases hta : s.tests.any (fun t => t.courseId == i) = true
      · simp only [hta, if_true]
        exact ⟨h1, h2⟩
      · have hta' : s.tests.any (fun t => t.courseId == i) = false := by simpa using hta
        simp only [hta', Bool.false_eq_true, if_false]
        constructor
        · intro t ht
          refine ⟨(h1 t ht).1, ?_⟩
          have hne : t.courseId ≠ i := by
            intro he
            have hx : s.tests.any (fun t2 => t2.courseId == i) = true :=
              List.any_eq_true.mpr ⟨t, ht, by simp [he]⟩
            rw [hta'] at hx
            cases hx
          exact any_eraseFirst (fun c : Normalized.Course => c.id) i t.courseId hne
            ((h1 t ht).2)
        · intro c hc
          exact h2 c (mem_of_mem_eraseFirst _ hc)

theorem integrityN_postTests (s : Normalized.Store) (b : TestBody) (newId : OID)
    (h : Normalized.Integrity s) :
    Normalized.Integrity (Normalized.postTests s b newId).2 := by
  obtain ⟨h1, h2⟩ := h
  unfold Normalized.postTests
  split
  · exact ⟨h1, h2⟩
  · cases hts : toObjectId (b.studentId.getD "") with
    | none =>
      simp only [hts]
      exact ⟨h1, h2⟩
    | some sId =>
      simp only [hts]
      cases htc : toObjectId (b.courseId.getD "") with
      | none =>
        simp only [htc]
        exact ⟨h1, h2⟩
      | some cId =>
        simp only [htc]
        by_cases hsa : s.students.any (fun x => x.id == sId) = true
        · by_cases hca : s.courses.any (fun c => c.id == cId) = true
          · simp only [hsa, hca, if_true]
            constructor
            · intro t ht
              rcases List.mem_append.mp ht with htl | htr
              · exact h1 t htl
              · have hte := List.mem_singleton.mp htr
                subst hte
                exact ⟨hsa, hca⟩
            · intro c hc
              exact h2 c hc
          · have hca' : s.courses.any (fun c => c.id == cId) = false := by simpa using hca
            simp only [hsa, hca', if_true, Bool.false_eq_true, if_false]
            exact ⟨h1, h2⟩
        · have hsa' : s.students.any (fun x => x.id == sId) = false := by simpa using hsa
          simp only [hsa', Bool.false_eq_true, if_false]
          exact ⟨h1, h2⟩

theorem integrityN_deleteTests (s : Normalized.Store) (raw : String)
    (h : Normalized.Integrity s) :
    Normalized.Integrity (Normalized.deleteTests s raw).2 := by
  obtain ⟨h1, h2⟩ := h
  unfold Normalized.deleteTests
  cases hio : toObjectId raw with
  | none =>
    simp only [hio]
    exact ⟨h1, h2⟩
  | some i =>
    simp only [hio]
    by_cases hex : s.tests.any (fun t => t.id == i) = true
    · simp only [hex, if_true]
      constructor
      · intro t ht
        exact h1 t (mem_of_mem_eraseFirst _ ht)
      · intro c hc
        exact h2 c hc
    · have hex' : s.tests.any (fun t => t.id == i) = false := by simpa using hex
      simp only [hex', Bool.false_eq_true, if_false]
      exact ⟨h1, h2⟩

theorem integrityN_reachable : ∀ s : Normalized.Store, Normalized.Reachable s →
    Normalized.Integrity s := by
  intro s h
  induction h with
  | empty => decide
  | step hr hs ih =>
    cases hs with
    | createTeacher b newId => exact integrityN_postTeachers _ b newId ih
    | updateTeacher raw b => exact integrityN_putTeachers _ raw b ih
    | removeTeacher raw => exact integrityN_deleteTeachers _ raw ih
    | createStudent b newId => exact integrityN_postStudents _ b newId ih
    | updateStudent raw b => exact integrityN_putStudents _ raw b ih
    | removeStudent raw => exact integrityN_deleteStudents _ raw ih
    | createCourse b newId => exact integrityN_postCourses _ b newId ih
    | updateCourse raw b => exact integrityN_putCourses _ raw b ih
    | removeCourse raw => exact integrityN_deleteCourses _ raw ih
    | createTest b newId => exact integrityN_postTests _ b newId ih
    | removeTest raw => exact integrityN_deleteTests _ raw ih

theorem integrityE_postStudents (s : Embedded.Store) (b : StudentBody) (newId : OID)
    (h : Embedded.Integrity s) :
    Embedded.Integrity (Embedded.postStudents s b newId).2 := by
  intro c hc t ht
  exact studentsCreate_any s.students b newId t.studentId (h c hc t ht)

theorem integrityE_putStudents (s : Embedded.Store) (raw : String) (b : StudentBody)
    (h : Embedded.Integrity s) :
    Embedded.Integrity (Embedded.putStudents s raw b).2 := by
  intro c hc t ht
  exact (studentsUpdate_any s.students raw b t.studentId).trans (h c hc t ht)

theorem integrityE_deleteStudents (s : Embedded.Store) (raw : String)
    (h : Embedded.Integrity s) :
    Embedded.Integrity (Embedded.deleteStudents s raw).2 := by
  rcases studentsDelete_cases s.students
      (fun j => s.courses.any (fun c => c.tests.any (fun t => t.studentId == j))) raw
    with hc | ⟨i, hi, hrc, hc⟩
  · intro c hcc t ht
    show ((studentsDelete s.students
      (fun j => s.courses.any (fun c => c.tests.any (fun t => t.studentId == j))) raw).2).any
        (fun x => x.id == t.studentId) = true
    rw [hc]
    exact h c hcc t ht
  · intro c hcc t ht
    show ((studentsDelete s.students
      (fun j => s.courses.any (fun c => c.tests.any (fun t => t.studentId == j))) raw).2).any
        (fun x => x.id == t.studentId) = true
    rw [hc]
    have hne : t.studentId ≠ i := by
      intro he
      have hx : s.courses.any (fun c2 => c2.tests.any (fun t2 => t2.studentId == i)) = true :=
        List.any_eq_true.mpr ⟨c, hcc, List.any_eq_true.mpr ⟨t, ht, by simp [he]⟩⟩
      rw [hrc] at hx
      cases hx
    exact any_eraseFirst (fun x : Student => x.id) i t.studentId hne (h c hcc t ht)

theorem integrityE_postCourses (s : Embedded.Store) (b : Embedded.ECourseBody) (newId : OID)
    (h : Embedded.Integrity s) :
    Embedded.Integrity (Embedded.postCourses s b newId).2 := by
  unfold Embedded.postCourses
  split
  · exact h
  · split
    · intro c hcc t ht
      rcases List.mem_append.mp hcc with hcl | hcr
      · exact h c hcl t ht
      · have hce := List.mem_singleton.mp hcr
        subst hce
        cases ht
    · exact h

theorem integrityE_putCourses (s : Embedded.Store) (raw : String) (b : Embedded.ECourseBody)
    (h : Embedded.Integrity s) :
    Embedded.Integrity (Embedded.putCourses s raw b).2 := by
  unfold Embedded.putCourses
  cases hio : toObjectId raw with
  | none =>
    simp only [hio]
    exact h
  | some i =>
    simp only [hio]
    by_cases hv : Embedded.courseUpdateValid b = true
    · simp only [hv, if_true]
      cases hf : s.courses.find? (fun c => c.id == i) with
      | none =>
        simp only [hf]
        exact h
      | some c0 =>
        simp only [hf]
        intro c hcc t ht
        rcases mem_updateFirst _ _ hcc with hcl | ⟨c1, hc1, hce⟩
        · exact h c hcl t ht
        · subst hce
          exact h c1 hc1 t ht
    · have hv' : Embedded.courseUpdateValid b = false := by simpa using hv
      simp only [hv', Bool.false_eq_true, if_false]
      exact h

theorem integrityE_deleteCourses (s : Embedded.Store) (raw : String)
    (h : Embedded.Integrity s) :
    Embedded.Integrity (Embedded.deleteCourses s raw).2 := by
  unfold Embedded.deleteCourses
  cases hio : toObjectId raw with
  | none =>
    simp only [hio]
    exact h
  | some i =>
    simp only [hio]
    cases hf : s.courses.find? (fun c => c.id == i) with
    | none =>
      simp only [hf]
      exact h
    | some c0 =>
      simp only [hf]
      split
      · exact h
      · intro c hcc t ht
        exact h c (mem_of_mem_eraseFirst _ hcc) t ht

theorem integrityE_postTests (s : Embedded.Store) (b : TestBody) (newId : OID)
    (h : Embedded.Integrity s) :
    Embedded.Integrity (Embedded.postTests s b newId).2 := by
  unfold Embedded.postTests
  split
  · exact h
  · cases hts : toObjectId (b.studentId.getD "") with
    | none =>
      simp only [hts]
      exact h
    | some sId =>
      simp only [hts]
      cases htc : toObjectId (b.courseId.getD "") with
      | none =>
        simp only [htc]
        exact h
      | some cId =>
        simp only [htc]
        by_cases hsa : s.students.any (fun x => x.id == sId) = true
        · simp only [hsa, if_true]
          cases hf : s.courses.find? (fun c => c.id == cId) with
          | none =>
            simp only [hf]
            exact h
          | some c0 =>
            simp only [hf]
            intro c hcc t ht
            rcases mem_updateFirst _ _ hcc with hcl | ⟨c1, hc1, hce⟩
            · exact h c hcl t ht
            · subst hce
              rcases List.mem_append.mp ht with htl | htr
              · exact h c1 hc1 t htl
              · have hte := List.mem_singleton.mp htr
                subst hte
                exact hsa
        · have hsa' : s.students.any (fun x => x.id == sId) = false := by simpa using hsa
          simp only [hsa', Bool.false_eq_true, if_false]
          exact h

theorem integrityE_deleteTests (s : Embedded.Store) (raw : String)
    (h : Embedded.Integrity s) :
    Embedded.Integrity (Embedded.deleteTests s raw).2 := by
  unfold Embedded.deleteTests
  cases hio : toObjectId raw with
  | none =>
    simp only [hio]
    exact h
  | some i =>
    simp only [hio]
    cases hf : s.courses.find? (fun c => c.tests.any (fun t => t.id == i)) with
    | none =>
      simp only [hf]
      exact h
    | some c0 =>
      simp only [hf]
      intro c hcc t ht
      rcases mem_updateFirst _ _ hcc with hcl | ⟨c1, hc1, hce⟩
      · exact h c hcl t ht
      · subst hce
        exact h c1 hc1 t (List.mem_filter.mp ht).1

theorem integrityE_reachable : ∀ s : Embedded.Store, Embedded.Reachable s →
    Embedded.Integrity s := by
  intro s h
  induction h with
  | empty => decide
  | step hr hs ih =>
    cases hs with
    | createStudent b newId => exact integrityE_postStudents _ b newId ih
    | updateStudent raw b => exact integrityE_putStudents _ raw b ih
    | removeStudent raw => exact integrityE_deleteStudents _ raw ih
    | createCourse b newId => exact integrityE_postCourses _ b newId ih
    | updateCourse raw b => exact integrityE_putCourses _ raw b ih
    | removeCourse raw => exact integrityE_deleteCourses _ raw ih
    | createTest b newId => exact integrityE_postTests _ b newId ih
    | removeTest raw => exact integrityE_deleteTests _ raw ih

/-- C1: in every store reachable from the empty deployment by any sequence
of the API's create/update/delete requests, every Test's student reference
resolves to an existing Student and its course reference (the owning
Course, in the embedded variant) resolves to an existing Course, and in
the teacher-aware normalized variant every Course's teacherId resolves to
an existing Teacher: creates that would break this are rejected by the
reference checks and deletes that would break it are rejected by the
dependent-record checks. -/
theorem referential_integrity_invariant :
    (∀ s : Normalized.Store, Normalized.Reachable s → Normalized.Integrity s) ∧
    (∀ s : Embedded.Store, Embedded.Reachable s → Embedded.Integrity s) :=
  ⟨integrityN_reachable, integrityE_reachable⟩

/-- Witness for C1: the store reached by one successful teacher creation
satisfies the invariant, as does the empty embedded store. -/
theorem referential_integrity_invariant_witness :
    Normalized.Integrity
      (Normalized.postTeachers Normalized.emptyStore
        ⟨some "Tom", some "Ray", none, none, none, none⟩ oidC).2 ∧
    Embedded.Integrity Embedded.emptyStore :=
  ⟨referential_integrity_invariant.1 _
      (Normalized.Reachable.step Normalized.Reachable.empty
        (Normalized.Step.createTeacher Normalized.emptyStore
          ⟨some "Tom", some "Ray", none, none, none, none⟩ oidC)),
    referential_integrity_invariant.2 _ Embedded.Reachable.empty⟩
